import Mathlib

/-!
Shallow embedding of the SCE-Bench evaluation core
(`src/analysis/common/{metrics,preprocessing,task_config}.py` and
`src/analysis/evaluators/{pointwise,distribution}.py`).

Numbers are modelled exactly by `ℚ` (Python floats on the inputs at stake are
decimal literals, and every operation the claims touch is exact on them);
`NaN` is the `Option.none` of `Option ℚ`.  Fallible Python code is an
`Except PyErr`.  Real-valued metrics that apply `sqrt`/`log` at the very end
(RMSE, JS divergence, Spearman) keep their computable rational core and wrap
it in `Real` functions.
-/

namespace SCE

/-- A Python object that `float(x)` either converts (a number, including a
numeric string already coerced upstream) or rejects.  `other` stands for any
object on which `float` raises `ValueError`/`TypeError`.  (Float `NaN` does
not occur among the parsed values the repository feeds to these functions:
`ast.literal_eval` of the LLM lists yields finite literals.) -/
inductive PyVal where
  | num (q : ℚ)
  | other
deriving DecidableEq, Repr

/-- One cell of a pandas column: missing (`NaN`/`None`), a number, a raw
string, or a parsed Python list (as produced by `extract_samples`). -/
inductive Cell where
  | na
  | num (q : ℚ)
  | text (s : String)
  | plist (xs : List PyVal)
deriving DecidableEq, Repr

/-- Model of a float-or-NaN numpy array entry. -/
abbrev PFloat := Option ℚ

/-- `pd.isna` on a cell: only the missing marker is NA (strings and lists are
not NA). -/
def cellIsNA : Cell → Bool
  | Cell.na => true
  | _ => false

/-- Numeric content of a cell, if any. -/
def cellNum : Cell → Option ℚ
  | Cell.num q => some q
  | _ => none

/- ## Text parsing layer

Models `clean_llm_response` / `extract_samples` (preprocessing.py 17-73) and
the numeric coercion `pd.to_numeric(..., errors="coerce")`.  The numeral
grammar is Python's finite decimal literal: optional sign, digits, optional
fraction, optional exponent.  (Strings such as `"inf"`/`"nan"`, and list
literals with non-numeric elements, are treated as coercion/parse failures;
no claim exercises them.) -/

/-- Python `str.strip()` on a character list: drop leading and trailing
whitespace. -/
def trimChars (cs : List Char) : List Char :=
  (((cs.dropWhile Char.isWhitespace).reverse).dropWhile
    Char.isWhitespace).reverse

/-- Digits to a natural number (`none` when the list is empty or has a
non-digit). -/
def digitsVal : List Char → Option ℕ
  | [] => none
  | cs => cs.foldl (fun acc c => match acc with
      | none => none
      | some n => if c.isDigit then some (n * 10 + (c.toNat - 48)) else none)
      (some 0)

/-- Parse the digits after `e`/`E`: optional sign then digits. -/
def parseExp : List Char → Option ℤ
  | '+' :: cs => (digitsVal cs).map (fun n => (n : ℤ))
  | '-' :: cs => (digitsVal cs).map (fun n => -(n : ℤ))
  | cs => (digitsVal cs).map (fun n => (n : ℤ))

/-- Parse an unsigned decimal numeral `digits [. digits] [e/E exp]` with at
least one digit in the integer or fractional part. -/
def parseUnsigned (cs : List Char) : Option ℚ :=
  let intPart := cs.takeWhile Char.isDigit
  let rest := cs.dropWhile Char.isDigit
  let step2 : Option (ℚ × List Char) :=
    match rest with
    | '.' :: rest2 =>
        let fracPart := rest2.takeWhile Char.isDigit
        let rest3 := rest2.dropWhile Char.isDigit
        if intPart.isEmpty ∧ fracPart.isEmpty then none
        else
          let i : ℕ := (digitsVal intPart).getD 0
          let f : ℕ := (digitsVal fracPart).getD 0
          some (((i : ℚ) + (f : ℚ) / (10 : ℚ) ^ fracPart.length), rest3)
    | _ =>
        if intPart.isEmpty then none
        else some (((digitsVal intPart).getD 0 : ℚ), rest)
  match step2 with
  | none => none
  | some (mantissa, rest3) =>
      match rest3 with
      | [] => some mantissa
      | 'e' :: ec => (parseExp ec).map (fun e => mantissa * (10 : ℚ) ^ e)
      | 'E' :: ec => (parseExp ec).map (fun e => mantissa * (10 : ℚ) ^ e)
      | _ => none

/-- Model of Python `float(...)` on raw characters: strip whitespace,
optional sign, decimal numeral. -/
def pyFloatOfChars (cs0 : List Char) : Option ℚ :=
  match trimChars cs0 with
  | '+' :: cs => parseUnsigned cs
  | '-' :: cs => (parseUnsigned cs).map Neg.neg
  | cs => parseUnsigned cs

/-- Model of Python `float(s)` / `pd.to_numeric(s, errors="coerce")` on a
string. -/
def pyFloatOfString (s : String) : Option ℚ :=
  pyFloatOfChars s.data

/-- Index of the first occurrence of `pat` in `s`, if any. -/
def findSubstrIdx (pat : List Char) : List Char → Option ℕ
  | [] => if pat.isEmpty then some 0 else none
  | c :: cs =>
      if pat.isPrefixOf (c :: cs) then some 0
      else (findSubstrIdx pat cs).map Nat.succ

/-- Remove the leftmost shortest `<think>...</think>` span, if present;
returns `none` when there is none. -/
def removeThinkSpan (cs : List Char) : Option (List Char) :=
  match findSubstrIdx "<think>".toList cs with
  | none => none
  | some i =>
      let afterOpen := cs.drop (i + 7)
      match findSubstrIdx "</think>".toList afterOpen with
      | none => none
      | some j => some (cs.take i ++ afterOpen.drop (j + 8))

/-- Repeatedly remove `<think>...</think>` spans (fuelled; each removal
strictly shortens the text). -/
def removeThinkAll : ℕ → List Char → List Char
  | 0, cs => cs
  | Nat.succ fuel, cs =>
      match removeThinkSpan cs with
      | none => cs
      | some cs2 => removeThinkAll fuel cs2

/-- Model of the body of `clean_llm_response` on a string: delete every
`<think>...</think>` block (non-greedy, dot-matches-newline), then strip. -/
def stripThink (s : String) : String :=
  String.mk (trimChars (removeThinkAll s.data.length s.data))

/-- Model of `clean_llm_response` (preprocessing.py 17-42) on a cell.  `NaN`
passes through; a string is think-stripped and trimmed.  A numeric or list
cell goes through `str(...)` and is recovered verbatim by the later
`float`/`literal_eval` coercion, so it is modelled as unchanged. -/
def clean_llm_response : Cell → Cell
  | Cell.na => Cell.na
  | Cell.num q => Cell.num q
  | Cell.text s => Cell.text (stripThink s)
  | Cell.plist xs => Cell.plist xs

/-- Split a character list on commas (list literal elements contain no
commas). -/
def splitCommas : List Char → List (List Char)
  | [] => [[]]
  | c :: cs =>
      let r := splitCommas cs
      if c = ',' then [] :: r
      else match r with
        | [] => [[c]]
        | h :: t => (c :: h) :: t

/-- Parse one list element as a signed numeral (whitespace-tolerant, as
`ast.literal_eval` is). -/
def parseListElem (cs : List Char) : Option ℚ :=
  pyFloatOfChars cs

/-- Parse the inside of a bracketed list: empty means `[]`, otherwise
comma-separated numerals.  Lists whose elements are not numeric literals are
treated as parse failures (Python would accept e.g. string elements; the
repository's data never carries them and every such element is discarded or
nullified downstream anyway). -/
def parseListBody (cs : List Char) : Option (List PyVal) :=
  if (trimChars cs).isEmpty then some []
  else
    let parts := (splitCommas cs).map parseListElem
    if parts.all Option.isSome then
      some (parts.map (fun p => PyVal.num (p.getD 0)))
    else none

/-- Model of `ast.literal_eval` restricted to list literals: the trimmed text
must be exactly `[ ... ]`. -/
def parseListLiteral (s : String) : Option (List PyVal) :=
  match trimChars s.data with
  | '[' :: rest =>
      match rest.reverse with
      | ']' :: revBody => parseListBody revBody.reverse
      | _ => none
  | _ => none

/-- First `[...]` span of the text (the regex `\[(.*?)\]`): the earliest `[`
that is followed by a `]`, captured up to the nearest following `]`. -/
def firstBracketSpan (cs : List Char) : Option (List Char) :=
  match cs with
  | [] => none
  | '[' :: rest =>
      match findSubstrIdx [']'] rest with
      | some j => some (rest.take j)
      | none => firstBracketSpan rest
  | _ :: rest => firstBracketSpan rest

/-- Model of `extract_samples` (preprocessing.py 45-73) on a string: strict
list-literal parse first, then the first bracketed span re-parsed as a
list. -/
def extractSamplesString (s : String) : Option (List PyVal) :=
  match parseListLiteral s with
  | some xs => some xs
  | none =>
      match firstBracketSpan (trimChars s.data) with
      | some body => parseListBody body
      | none => none

/-- Model of `extract_samples` on a cell.  `NaN` stays `NaN`; a string is
parsed; a numeric scalar has no bracketed span (`str(q)` is a plain numeral),
so it fails; an already-parsed list round-trips through `str`/`literal_eval`
unchanged. -/
def extract_samples : Cell → Cell
  | Cell.na => Cell.na
  | Cell.num _ => Cell.na
  | Cell.text s =>
      match extractSamplesString s with
      | some xs => Cell.plist xs
      | none => Cell.na
  | Cell.plist xs => Cell.plist xs

/-- Model of `pd.to_numeric(cell, errors="coerce")`: numbers survive, strings
are parsed as floats or coerced to `NaN`, anything else (missing, list)
becomes `NaN`. -/
def toNumericCell : Cell → Cell
  | Cell.num q => Cell.num q
  | Cell.text s =>
      match pyFloatOfString s with
      | some q => Cell.num q
      | none => Cell.na
  | _ => Cell.na

/- ## Task configuration (`task_config.py`) -/

/-- A Python exception escaping one of the embedded functions. -/
inductive PyErr where
  | valueError (msg : String)
  | unboundLocal (name : String)
deriving DecidableEq, Repr

/-- A value stored in a task-configuration dict: a string, or the
`valid_range` pair. -/
inductive ConfigVal where
  | str (s : String)
  | vrange (lo hi : ℚ)
deriving DecidableEq, Repr

/-- A Python dict with string keys, as an insertion-ordered association list
with unique keys. -/
abbrev Dict (α : Type) := List (String × α)

/-- Dict lookup (`d[k]` / `d.get(k)`). -/
def dictLookup (d : Dict α) (k : String) : Option α :=
  (d.find? (fun p => p.1 == k)).map Prod.snd

/-- Dict assignment `d[k] = v`: replace in place when the key exists,
otherwise append (Python insertion-order semantics). -/
def dictSet (d : Dict α) (k : String) (v : α) : Dict α :=
  if d.any (fun p => p.1 == k) then
    d.map (fun p => if p.1 == k then (k, v) else p)
  else d ++ [(k, v)]

/-- Shallow `dict.copy()`: a fresh top-level dict with the same (immutable)
values; later writes to the copy leave the original untouched, which the
state-passing model expresses by returning the table unchanged. -/
def dictCopy (d : Dict α) : Dict α := d

/-- Python `config.update(overrides)`. -/
def dictUpdate (d : Dict α) (ov : Dict α) : Dict α :=
  ov.foldl (fun acc kv => dictSet acc kv.1 kv.2) d

/-- One task configuration dict. -/
abbrev Config := Dict ConfigVal

/-- The module-level `TASK_CONFIGS` table (task_config.py 10-34). -/
def TASK_CONFIGS : Dict Config :=
  [("spending",
     [("llm_col", ConfigVal.str "llm_response"),
      ("human_col", ConfigVal.str "Q26v2part2"),
      ("file_pattern", ConfigVal.str "spending_*_withHumanData.csv"),
      ("description", ConfigVal.str "Spending expectation change"),
      ("cleaning_method", ConfigVal.str "iqr")]),
   ("labor",
     [("llm_col", ConfigVal.str "llm_response"),
      ("human_col", ConfigVal.str "oo2c3"),
      ("file_pattern", ConfigVal.str "labor_*_withHumanData.csv"),
      ("description", ConfigVal.str "Job acceptance probability (0-100)"),
      ("cleaning_method", ConfigVal.str "range"),
      ("valid_range", ConfigVal.vrange 0 100)]),
   ("credit",
     [("llm_col", ConfigVal.str "llm_response"),
      ("human_col", ConfigVal.str "N17b_2"),
      ("file_pattern", ConfigVal.str "credit_*_withHumanData.csv"),
      ("description", ConfigVal.str "Loan application probability (0-100)"),
      ("cleaning_method", ConfigVal.str "range"),
      ("valid_range", ConfigVal.vrange 0 100)])]

/-- Model of `get_task_config` (task_config.py 37-59) with the global table
passed as explicit state.  The source copies the stored dict before merging
the overrides, so the table component of the result is the input table
unchanged; an unknown task name raises `ValueError`. -/
def get_task_config_st (tbl : Dict Config) (taskName : String)
    (overrides : Option Config) : Except PyErr (Config × Dict Config) :=
  match dictLookup tbl taskName with
  | none => Except.error (PyErr.valueError ("Unknown task name: " ++ taskName))
  | some base =>
      let config := dictUpdate (dictCopy base) (overrides.getD [])
      Except.ok (config, tbl)

/-- The call `get_task_config(task_name)` as issued by the cleaning functions
(no overrides, global table). -/
def get_task_config (taskName : String) : Except PyErr Config :=
  (get_task_config_st TASK_CONFIGS taskName none).map Prod.fst

/-- `task_config.get("cleaning_method", "none")`, with the string payload. -/
def cfgCleaningMethod (cfg : Config) : String :=
  match dictLookup cfg "cleaning_method" with
  | some (ConfigVal.str s) => s
  | _ => "none"

/-- `task_config.get("valid_range", (0, 100))`. -/
def cfgValidRange (cfg : Config) : ℚ × ℚ :=
  match dictLookup cfg "valid_range" with
  | some (ConfigVal.vrange lo hi) => (lo, hi)
  | _ => (0, 100)

/- ## Quantiles (`Series.quantile`, linear interpolation) -/

/-- Linear-interpolation quantile of an ascending-sorted list (the pandas
default `interpolation="linear"`): position `h = q(n-1)`, value
`s[⌊h⌋] + (h-⌊h⌋)(s[⌊h⌋+1] - s[⌊h⌋])`, with the upper index clamped to the
last element (the fractional part is zero exactly when clamping occurs). -/
def quantileSorted (s : List ℚ) (q : ℚ) : Option ℚ :=
  if s.isEmpty then none
  else
    let n := s.length
    let h : ℚ := q * ((n : ℚ) - 1)
    let i : ℕ := (Int.floor h).toNat
    let i2 : ℕ := min (i + 1) (n - 1)
    let a := s.getD i 0
    let b := s.getD i2 0
    some (a + (h - (i : ℚ)) * (b - a))

/-- `Series.quantile(q)` over a column of cells: the non-NaN numeric values
are sorted ascending and interpolated; an all-NaN column yields NaN. -/
def quantileOf (cells : List Cell) (q : ℚ) : Option ℚ :=
  quantileSorted (List.insertionSort (· ≤ ·) (cells.filterMap cellNum)) q

/- ## Cleaning (`preprocessing.py`) -/

/-- The `CleaningReport` statistics dict. -/
structure CleanStats where
  original_rows : ℕ
  human_null : ℕ
  llm_invalid : ℕ
  rows_removed_range : ℕ
  rows_removed_iqr : ℕ
  final_rows : ℕ
deriving DecidableEq, Repr

/-- One DataFrame row; `llm`/`human` are the task's two designated columns,
`date` is the value of the `date` column when the frame has one. -/
structure Row where
  llm : Cell
  human : Cell
  date : ℤ
deriving DecidableEq, Repr

/-- A DataFrame: its rows plus whether a `date` column is present. -/
structure DFrame where
  hasDate : Bool
  rows : List Row
deriving DecidableEq, Repr

/-- Whether a cell holds a Python object (string or list) rather than a
float: a column containing any such cell has pandas dtype `object`. -/
def cellIsPyObject : Cell → Bool
  | Cell.text _ => true
  | Cell.plist _ => true
  | _ => false

/-- `astype(str).str.strip() == ""`: only a whitespace-only string qualifies
(`str(nan) = "nan"`, numbers and lists print non-empty). -/
def isBlankStr : Cell → Bool
  | Cell.text s => (trimChars s.data).isEmpty
  | _ => false

/-- The human-null mask (preprocessing.py 115-117 / 211-213): NA, or — when
the column has object dtype — a blank-after-strip string. -/
def humanNullFlagged (rows : List Row) (r : Row) : Bool :=
  cellIsNA r.human ||
    ((rows.map Row.human).any cellIsPyObject && isBlankStr r.human)

/-- Step 1 of both cleaners: `df[llm_col].apply(clean_llm_response)`. -/
def llmCleanStep (rows : List Row) : List Row :=
  rows.map (fun r => { r with llm := clean_llm_response r.llm })

/-- Step 2 of both cleaners: drop human-null rows, counting them. -/
def humanNullStep (rows : List Row) : List Row × ℕ :=
  (rows.filter (fun r => ! humanNullFlagged rows r),
   (rows.filter (humanNullFlagged rows)).length)

/-- Point-mode step 3: coerce both columns to numeric. -/
def pointCoerce (rows : List Row) : List Row :=
  rows.map (fun r =>
    { r with llm := toNumericCell r.llm, human := toNumericCell r.human })

/-- Drop rows whose LLM cell is NA, counting them (`llm_invalid`). -/
def llmInvalidStep (rows : List Row) : List Row × ℕ :=
  (rows.filter (fun r => ! cellIsNA r.llm),
   (rows.filter (fun r => cellIsNA r.llm)).length)

/-- The point-mode range mask `(x >= lo) & (x <= hi)`; NaN compares false on
both sides, so an NA cell is never kept by it. -/
def rangeKeep (lo hi : ℚ) : Cell → Bool
  | Cell.num q => decide (lo ≤ q) && decide (q ≤ hi)
  | _ => false

/-- Point-mode range filtering (preprocessing.py 135-141). -/
def pointRangeStep (lo hi : ℚ) (rows : List Row) : List Row × ℕ :=
  (rows.filter (fun r => rangeKeep lo hi r.llm),
   (rows.filter (fun r => ! rangeKeep lo hi r.llm)).length)

/-- `cell <= bound` in pandas: false whenever the cell is not numeric or the
bound is NaN. -/
def cellLE (c : Cell) (bound : Option ℚ) : Bool :=
  match c, bound with
  | Cell.num q, some b => decide (q ≤ b)
  | _, _ => false

/-- The one-sided IQR fence `Q3 + 15 * (Q3 - Q1)` of a column (NaN when the
column has no numeric value). -/
def iqrFence (cells : List Cell) : Option ℚ :=
  match quantileOf cells (1/4), quantileOf cells (3/4) with
  | some q1, some q3 => some (q3 + 15 * (q3 - q1))
  | _, _ => none

/-- The combined point-mode IQR inlier mask (preprocessing.py 144-160): both
the human and the LLM value must sit at or below their column's fence. -/
def pointIqrKeep (rows : List Row) (r : Row) : Bool :=
  cellLE r.human (iqrFence (rows.map Row.human)) &&
  cellLE r.llm (iqrFence (rows.map Row.llm))

/-- Point-mode IQR filtering with its removed-row count. -/
def pointIqrStep (rows : List Row) : List Row × ℕ :=
  (rows.filter (pointIqrKeep rows),
   (rows.filter (fun r => ! pointIqrKeep rows r)).length)

/-- Final defensive `dropna(subset=[llm_col, human_col])`. -/
def dropnaBoth (rows : List Row) : List Row :=
  rows.filter (fun r => ! cellIsNA r.llm && ! cellIsNA r.human)

/-- Model of `clean_task_data` (preprocessing.py 76-169).  The only
exception it can raise is the `ValueError` of `get_task_config` on an
unknown task name. -/
def clean_task_data (df : DFrame) (taskName : String) :
    Except PyErr (DFrame × CleanStats) :=
  let rows1 := llmCleanStep df.rows
  let step2 := humanNullStep rows1
  let rows3 := pointCoerce step2.1
  let step4 := llmInvalidStep rows3
  match get_task_config taskName with
  | Except.error e => Except.error e
  | Except.ok cfg =>
      let method := cfgCleaningMethod cfg
      let branch : List Row × ℕ × ℕ :=
        if method = "range" then
          let lohi := cfgValidRange cfg
          let s := pointRangeStep lohi.1 lohi.2 step4.1
          (s.1, s.2, 0)
        else if method = "iqr" then
          let s := pointIqrStep step4.1
          (s.1, 0, s.2)
        else (step4.1, 0, 0)
      let rows6 := dropnaBoth branch.1
      Except.ok ({ df with rows := rows6 },
        { original_rows := df.rows.length
          human_null := step2.2
          llm_invalid := step4.2
          rows_removed_range := branch.2.1
          rows_removed_iqr := branch.2.2
          final_rows := rows6.length })

/-- The point-mode frame entering the advanced-cleaning branch (after think
stripping, the human-null drop, numeric coercion and the `llm_invalid`
drop). -/
def pointPrefiltered (df : DFrame) : List Row :=
  (llmInvalidStep (pointCoerce (humanNullStep (llmCleanStep df.rows)).1)).1

/-- Distribution-mode parse step: `df[llm_col].apply(extract_samples)`. -/
def distParseStep (rows : List Row) : List Row :=
  rows.map (fun r => { r with llm := extract_samples r.llm })

/-- Distribution-mode human coercion and (uncounted) `dropna` on the human
column (preprocessing.py 224-226). -/
def distHumanCoerce (rows : List Row) : List Row :=
  (rows.map (fun r => { r with human := toNumericCell r.human })).filter
    (fun r => ! cellIsNA r.human)

/-- `filter_samples` (preprocessing.py 235-239): keep the numeric elements
inside the closed interval; a non-list cell yields `[]`. -/
def filterSamplesVal (lo hi : ℚ) : Cell → List PyVal
  | Cell.plist xs =>
      xs.filter (fun v =>
        match v with
        | PyVal.num q => decide (lo ≤ q) && decide (q ≤ hi)
        | PyVal.other => false)
  | _ => []

/-- Distribution-mode range filtering (preprocessing.py 232-248): filter each
list element-wise, then drop the rows whose filtered list became empty. -/
def distRangeStep (lo hi : ℚ) (rows : List Row) : List Row × ℕ :=
  let filtered := rows.map (fun r =>
    { r with llm := Cell.plist (filterSamplesVal lo hi r.llm) })
  let isEmptyList : Row → Bool := fun r =>
    match r.llm with
    | Cell.plist xs => xs.isEmpty
    | _ => false
  (filtered.filter (fun r => ! isEmptyList r),
   (filtered.filter isEmptyList).length)

/-- Model of `clean_distribution_data` (preprocessing.py 172-280).  Its
`iqr` branch executes `iqr_h = q3_h - iqr_h` (line 255), which reads the
local `iqr_h` before its first assignment, so reaching that branch raises
`UnboundLocalError` unconditionally. -/
def clean_distribution_data (df : DFrame) (taskName : String) :
    Except PyErr (DFrame × CleanStats) :=
  let rows1 := llmCleanStep df.rows
  let step2 := humanNullStep rows1
  let rows3 := distParseStep step2.1
  let step4 := llmInvalidStep rows3
  let rows5 := distHumanCoerce step4.1
  match get_task_config taskName with
  | Except.error e => Except.error e
  | Except.ok cfg =>
      let method := cfgCleaningMethod cfg
      if method = "range" then
        let lohi := cfgValidRange cfg
        let s := distRangeStep lohi.1 lohi.2 rows5
        Except.ok ({ df with rows := s.1 },
          { original_rows := df.rows.length
            human_null := step2.2
            llm_invalid := step4.2
            rows_removed_range := s.2
            rows_removed_iqr := 0
            final_rows := s.1.length })
      else if method = "iqr" then
        Except.error (PyErr.unboundLocal "iqr_h")
      else
        Except.ok ({ df with rows := rows5 },
          { original_rows := df.rows.length
            human_null := step2.2
            llm_invalid := step4.2
            rows_removed_range := 0
            rows_removed_iqr := 0
            final_rows := rows5.length })

/- ## Metrics library (`metrics.py`) -/

/-- The index-aligned pairs in which neither value is NaN (the mask
`~(isnan(a) | isnan(b))` of `compute_mae`/`compute_rmse`). -/
def validPairs (a b : List PFloat) : List (ℚ × ℚ) :=
  (a.zip b).filterMap (fun p =>
    match p.1, p.2 with
    | some x, some y => some (x, y)
    | _, _ => none)

/-- Model of `compute_mae` (metrics.py 17-37): drop NaN pairs, then the mean
absolute difference; NaN when no pair remains.  (The two arrays have equal
length wherever the repository calls this; numpy shape errors on mismatched
inputs are outside the model.) -/
def compute_mae (a b : List PFloat) : PFloat :=
  let pairs := validPairs a b
  if pairs.isEmpty then none
  else some ((pairs.map (fun p => |p.1 - p.2|)).sum / (pairs.length : ℚ))

/-- The mean squared error under the same mask: the radicand of
`compute_rmse`. -/
def meanSquaredOf (a b : List PFloat) : PFloat :=
  let pairs := validPairs a b
  if pairs.isEmpty then none
  else some ((pairs.map (fun p => (p.1 - p.2) ^ 2)).sum / (pairs.length : ℚ))

/-- Model of `compute_rmse` (metrics.py 63-83): the square root of the
masked mean squared error; NaN when no pair remains. -/
noncomputable def compute_rmse (a b : List PFloat) : Option ℝ :=
  (meanSquaredOf a b).map (fun q => Real.sqrt (q : ℝ))

/-- Model of `compute_mape` (metrics.py 40-60): the mask keeps the pairs
whose ground truth is non-zero (a NaN ground truth also passes the `!= 0`
test, and then poisons the mean, modelled as NaN). -/
def compute_mape (a b : List PFloat) : PFloat :=
  let pairs := (a.zip b).filter (fun p => p.1 != some 0)
  if pairs.isEmpty then none
  else
    let terms := pairs.mapM (fun p =>
      match p.1, p.2 with
      | some t, some y => some (|t - y| / |t|)
      | _, _ => none)
    terms.map (fun ts => ts.sum / (pairs.length : ℚ) * 100)

/-- Average ranks (`scipy.stats.rankdata`, method `average`): the rank of `x`
is `#{y < x} + (#{y = x} + 1) / 2`, one-based. -/
def ranksAvg (l : List ℚ) : List ℚ :=
  l.map (fun x =>
    ((l.countP (fun y => decide (y < x)) : ℚ) +
      ((l.countP (fun y => decide (y = x)) : ℚ) + 1) / 2))

/-- Pearson correlation over the reals (`0/0` renders as Lean's `0` where
scipy would produce NaN on a constant series; no claim touches that case). -/
noncomputable def pearsonR (x y : List ℚ) : ℝ :=
  let n : ℚ := x.length
  let mx := x.sum / n
  let my := y.sum / n
  let sxy : ℚ := ((x.zip y).map (fun p => (p.1 - mx) * (p.2 - my))).sum
  let sxx : ℚ := (x.map (fun v => (v - mx) ^ 2)).sum
  let syy : ℚ := (y.map (fun v => (v - my) ^ 2)).sum
  (sxy : ℝ) / (Real.sqrt (sxx : ℝ) * Real.sqrt (syy : ℝ))

/-- Density of Student's t distribution with `nu` degrees of freedom
(model of the distribution scipy's `spearmanr` p-value refers to). -/
noncomputable def studentPdf (nu : ℕ) (x : ℝ) : ℝ :=
  Real.Gamma (((nu : ℝ) + 1) / 2) /
    (Real.sqrt ((nu : ℝ) * Real.pi) * Real.Gamma ((nu : ℝ) / 2)) *
    (1 + x ^ 2 / (nu : ℝ)) ^ (-(((nu : ℝ) + 1) / 2))

/-- Upper-tail probability of Student's t. -/
noncomputable def tTailProb (nu : ℕ) (t : ℝ) : ℝ :=
  ∫ x in Set.Ioi t, studentPdf nu x

/-- The two-sided p-value of the t statistic of a correlation `r` over `n`
points (`df = n - 2`), as computed by `scipy.stats.spearmanr`. -/
noncomputable def spearmanPValue (n : ℕ) (r : ℝ) : ℝ :=
  let nu := n - 2
  let t := r * Real.sqrt ((nu : ℝ) / (1 - r ^ 2))
  2 * tTailProb nu |t|

/-- Model of `compute_temporal_spearman` (metrics.py 86-111): drop NaN
pairs, require at least two points (else the NaN pair, modelled as `none`),
then Spearman's rank correlation with its two-sided p-value. -/
noncomputable def compute_temporal_spearman (a b : List PFloat) :
    Option (ℝ × ℝ) :=
  let pairs := validPairs a b
  if pairs.length < 2 then none
  else
    let rho := pearsonR (ranksAvg (pairs.map Prod.fst))
                        (ranksAvg (pairs.map Prod.snd))
    some (rho, spearmanPValue pairs.length rho)

/-- Minimum of a numeric array (callers guarantee non-emptiness). -/
def listMinQ : List ℚ → ℚ
  | [] => 0
  | x :: xs => xs.foldl min x

/-- Maximum of a numeric array (callers guarantee non-emptiness). -/
def listMaxQ : List ℚ → ℚ
  | [] => 0
  | x :: xs => xs.foldl max x

/-- Bin index of `x` in `bins` equal-width bins over `[lo, hi]`
(`np.histogram`): values equal to the right edge fall in the last bin. -/
def binIdx (bins : ℕ) (lo hi : ℚ) (x : ℚ) : ℕ :=
  min (Int.floor ((x - lo) * (bins : ℚ) / (hi - lo))).toNat (bins - 1)

/-- `np.histogram(vals, bins, range=(lo,hi), density=True)`: per-bin count
divided by `total_count * bin_width` (every value the callers pass lies
inside the range). -/
def histDensity (bins : ℕ) (lo hi : ℚ) (vals : List ℚ) : List ℚ :=
  let w := (hi - lo) / (bins : ℚ)
  (List.range bins).map (fun i =>
    ((vals.filter (fun x => binIdx bins lo hi x = i)).length : ℚ) /
      ((vals.length : ℚ) * w))

/-- Add the epsilon `1e-10` to every bin and renormalize to sum 1
(metrics.py 151-156). -/
def normEps (h : List ℚ) : List ℚ :=
  let h2 := h.map (fun v => v + 1 / (10 : ℚ) ^ (10 : ℕ))
  h2.map (fun v => v / h2.sum)

/-- Model of `scipy.stats.entropy(pk, qk)`: normalize both vectors to sum 1,
then the Kullback-Leibler sum in nats. -/
noncomputable def relEntropySum (p q : List ℚ) : ℝ :=
  ((p.zip q).map (fun pr =>
    ((pr.1 / p.sum : ℚ) : ℝ) *
      Real.log (((pr.1 / p.sum : ℚ) : ℝ) / ((pr.2 / q.sum : ℚ) : ℝ)))).sum

/-- The histogram range used by `compute_js_divergence` when none is given:
`[min of both sample sets, max of both sample sets]`, widened by numpy to
`[v - 1/2, v + 1/2]` when the two edges coincide. -/
def jsRange (ps qs : List ℚ) : ℚ × ℚ :=
  let lo := min (listMinQ ps) (listMinQ qs)
  let hi := max (listMaxQ ps) (listMaxQ qs)
  if lo = hi then (lo - 1 / 2, hi + 1 / 2) else (lo, hi)

/-- The last lines of `compute_js_divergence` (metrics.py 158-162): the
mixture `M = 0.5 * (P + Q)` and `0.5 * KL(P, M) + 0.5 * KL(Q, M)`. -/
noncomputable def jsFromHists (pH qH : List ℚ) : ℝ :=
  let mH := (pH.zip qH).map (fun pr => (1 / 2 : ℚ) * (pr.1 + pr.2))
  (1 / 2 : ℝ) * relEntropySum pH mH + (1 / 2 : ℝ) * relEntropySum qH mH

/-- Model of `compute_js_divergence` (metrics.py 114-162): drop NaNs from
each sample set independently, NaN if either set empties, shared histogram
edges, epsilon and renormalization, then `jsFromHists`. -/
noncomputable def compute_js_divergence (p q : List PFloat) (bins : ℕ := 50)
    (rangeVals : Option (ℚ × ℚ) := none) : Option ℝ :=
  let ps := p.filterMap id
  let qs := q.filterMap id
  if ps.isEmpty || qs.isEmpty then none
  else
    let rv := match rangeVals with
      | some r => if r.1 = r.2 then (r.1 - 1 / 2, r.2 + 1 / 2) else r
      | none => jsRange ps qs
    some (jsFromHists (normEps (histDensity bins rv.1 rv.2 ps))
      (normEps (histDensity bins rv.1 rv.2 qs)))

/-- Model of Python `float(x)` on a list element. -/
def pyFloatOfVal : PyVal → Option ℚ
  | PyVal.num q => some q
  | PyVal.other => none

/-- The comprehension `[float(x) for x in samples]` inside its
`try`/`except`: all elements convert, or the whole conversion fails. -/
def floatAll : List PyVal → Option (List ℚ)
  | [] => some []
  | v :: vs =>
      match pyFloatOfVal v, floatAll vs with
      | some q, some qs => some (q :: qs)
      | _, _ => none

/-- Model of `calculate_ecdf` (metrics.py 165-193): `None` on an empty
sample list or when `float(...)` rejects the truth or any sample; otherwise
`(#{s < truth} + 0.5 * #{s = truth}) / N`. -/
def calculate_ecdf (samples : List PyVal) (truth : PyVal) : Option ℚ :=
  if samples.isEmpty then none
  else
    match floatAll samples, truth with
    | some qs, PyVal.num t =>
        some (((qs.countP (fun s => decide (s < t)) : ℚ) +
          (1 / 2 : ℚ) * (qs.countP (fun s => decide (s = t)) : ℚ)) /
          (qs.length : ℚ))
    | _, _ => none

/- ## Python `round` (banker's rounding) -/

/-- Round-half-to-even on a rational. -/
def roundHalfEven (x : ℚ) : ℤ :=
  let f := Int.floor x
  let r := x - (f : ℚ)
  if r < 1 / 2 then f
  else if 1 / 2 < r then f + 1
  else if f % 2 = 0 then f else f + 1

/-- Model of Python `round(x, nd)` on the exact rational value. -/
def pyRound (x : ℚ) (nd : ℕ) : ℚ :=
  (roundHalfEven (x * (10 : ℚ) ^ nd) : ℚ) / (10 : ℚ) ^ nd

/-- Round-half-to-even on a real (for the boundary rounding of the
real-valued metrics). -/
noncomputable def roundHalfEvenR (x : ℝ) : ℤ :=
  let f := Int.floor x
  let r := x - (f : ℝ)
  if r < 1 / 2 then f
  else if 1 / 2 < r then f + 1
  else if f % 2 = 0 then f else f + 1

/-- Model of Python `round(x, nd)` on a real value. -/
noncomputable def pyRoundR (x : ℝ) (nd : ℕ) : ℝ :=
  (roundHalfEvenR (x * (10 : ℝ) ^ nd) : ℝ) / (10 : ℝ) ^ nd

/- ## Evaluators (`evaluators/pointwise.py`, `evaluators/distribution.py`)

The file-discovery and CSV-loading steps are the evaluators' external
boundary; the embedding takes the loaded DataFrame as input. -/

/-- An evaluator outcome: either the structured degenerate-result record
`{error: msg, cleaning_stats}` or a full metrics record. -/
inductive EvalOut (α : Type) where
  | errRec (msg : String) (cleaning_stats : CleanStats)
  | metrics (m : α)
deriving DecidableEq, Repr

/-- The pointwise result record (rounded at the boundary; NaN metrics are
serialized as `None`, modelled by `Option`). -/
structure PointMetrics where
  spearman_rho : Option ℝ
  spearman_p : Option ℝ
  js_divergence : Option ℝ
  rmse : Option ℝ
  mae : Option ℚ
  n_samples : ℕ
  n_time_points : ℕ
  cleaning_stats : CleanStats

/-- The distinct values of the `date` column, ascending — the group keys of
`df.groupby("date")`. -/
def distinctDates (rows : List Row) : List ℤ :=
  List.insertionSort (· ≤ ·) (rows.map Row.date).dedup

/-- Mean of one column inside one date group (pandas group mean skips NaN;
NaN when the group holds no numeric value). -/
def groupMean (proj : Row → Cell) (rows : List Row) (d : ℤ) : PFloat :=
  let vals := (rows.filter (fun r => r.date == d)).filterMap
    (fun r => cellNum (proj r))
  if vals.isEmpty then none else some (vals.sum / (vals.length : ℚ))

/-- The per-date `(human mean, llm mean)` series of
`df.groupby("date")[[llm, human]].mean()`. -/
def dailyMeans (rows : List Row) : List (PFloat × PFloat) :=
  (distinctDates rows).map (fun d =>
    (groupMean Row.human rows d, groupMean Row.llm rows d))

/-- Steps 3-8 of `PointwiseEvaluator.evaluate_task` on the cleaned frame. -/
noncomputable def pointMetricsOf (dfc : DFrame) (st : CleanStats) :
    PointMetrics :=
  let h := dfc.rows.map (fun r => cellNum r.human)
  let l := dfc.rows.map (fun r => cellNum r.llm)
  let rmse := compute_rmse h l
  let timePart : ℕ × Option (ℝ × ℝ) :=
    if dfc.hasDate then
      let ds := dailyMeans dfc.rows
      (ds.length, compute_temporal_spearman (ds.map Prod.fst) (ds.map Prod.snd))
    else (0, compute_temporal_spearman h l)
  let js := compute_js_divergence h l
  let mae := compute_mae h l
  { spearman_rho := timePart.2.map (fun p => pyRoundR p.1 4)
    spearman_p := timePart.2.map (fun p => pyRoundR p.2 6)
    js_divergence := js.map (fun v => pyRoundR v 4)
    rmse := rmse.map (fun v => pyRoundR v 4)
    mae := mae.map (fun m => pyRound m 2)
    n_samples := st.final_rows
    n_time_points := timePart.1
    cleaning_stats := st }

/-- Model of `PointwiseEvaluator.evaluate_task` (pointwise.py 42-137) from
the loaded DataFrame onward. -/
noncomputable def evaluate_pointwise_task (df : DFrame) (taskName : String) :
    Except PyErr (EvalOut PointMetrics) :=
  match clean_task_data df taskName with
  | Except.error e => Except.error e
  | Except.ok cleaned =>
      if cleaned.2.final_rows = 0 then
        Except.ok (EvalOut.errRec "No valid samples after cleaning" cleaned.2)
      else
        Except.ok (EvalOut.metrics (pointMetricsOf cleaned.1 cleaned.2))

/-- Model of Python `float(x)` on a cell (numeric strings convert; missing
values and lists raise, i.e. `none`). -/
def cellToFloat : Cell → Option ℚ
  | Cell.num q => some q
  | Cell.text s => pyFloatOfString s
  | _ => none

/-- A cell as the `truth` argument of `calculate_ecdf`. -/
def cellToPyVal (c : Cell) : PyVal :=
  match cellToFloat c with
  | some q => PyVal.num q
  | none => PyVal.other

/-- `np.mean` of a parsed sample list (NaN on an empty list; a list with a
non-float member would raise in numpy but cannot reach this call, since
`calculate_ecdf` filters it out first). -/
def pyMeanList (xs : List PyVal) : Option ℚ :=
  match floatAll xs with
  | some qs => if qs.isEmpty then none else some (qs.sum / (qs.length : ℚ))
  | none => none

/-- One entry of `eval_results` (distribution.py 91-111). -/
structure DistRecord where
  is_hit : Bool
  truth : ℚ
  mean_pred : Option ℚ
deriving DecidableEq, Repr

/-- The per-row body of the distribution loop: skip rows whose LLM cell is
not a list or whose ECDF is `None`; otherwise classify the central-interval
hit `lower_bound <= ecdf <= upper_bound` for confidence level `C`. -/
def distEvalRow (C : ℚ) (r : Row) : Option DistRecord :=
  match r.llm with
  | Cell.plist samples =>
      match calculate_ecdf samples (cellToPyVal r.human) with
      | some e =>
          some { is_hit := decide ((1 - C) / 2 ≤ e) && decide (e ≤ (1 + C) / 2)
                 truth := (cellToFloat r.human).getD 0
                 mean_pred := pyMeanList samples }
      | none => none
  | _ => none

/-- All `eval_results` rows. -/
def distEvalRecords (C : ℚ) (rows : List Row) : List DistRecord :=
  rows.filterMap (distEvalRow C)

/-- `coverage_rate = hit_count / total_valid` (distribution.py 122-124),
before the boundary rounding. -/
def coverageAggregate (recs : List DistRecord) : ℚ :=
  ((recs.filter (fun r => r.is_hit)).length : ℚ) / (recs.length : ℚ)

/-- The distribution result record. -/
structure DistMetrics where
  mae : Option ℚ
  coverage_rate : ℚ
  n_samples : ℕ
  cleaning_stats : CleanStats
deriving DecidableEq, Repr

/-- The default confidence level:
`self.config.get("confidence_level", 0.90)`. -/
def distConfidenceOf (config : Dict ℚ) : ℚ :=
  (dictLookup config "confidence_level").getD (9 / 10)

/-- Model of `DistributionEvaluator.evaluate_task` (distribution.py 39-141)
from the loaded DataFrame onward, at confidence level `C`. -/
def evaluate_distribution_task (C : ℚ) (df : DFrame) (taskName : String) :
    Except PyErr (EvalOut DistMetrics) :=
  match clean_distribution_data df taskName with
  | Except.error e => Except.error e
  | Except.ok cleaned =>
      if cleaned.2.final_rows = 0 then
        Except.ok (EvalOut.errRec "No valid samples after cleaning" cleaned.2)
      else
        let recs := distEvalRecords C cleaned.1.rows
        if recs.isEmpty then
          Except.ok (EvalOut.errRec "No valid ECDF calculation results" cleaned.2)
        else
          Except.ok (EvalOut.metrics
            { mae := (compute_mae (recs.map (fun r => some r.truth))
                        (recs.map (fun r => r.mean_pred))).map
                     (fun m => pyRound m 2)
              coverage_rate := pyRound (coverageAggregate recs) 4
              n_samples := recs.length
              cleaning_stats := cleaned.2 })

/- ## Shared helper lemmas -/

/-- Splitting a list by a Boolean predicate preserves total length. -/
theorem length_filter_split (p : α → Bool) (l : List α) :
    (l.filter p).length + (l.filter (fun x => ! p x)).length = l.length := by
  induction l with
  | nil => rfl
  | cons a t ih =>
      cases h : p a <;> simp [List.filter_cons, h] <;> omega

/-- A `filterMap` has as many elements as there are arguments on which the
function succeeds. -/
theorem length_filterMap_eq (f : α → Option β) (l : List α) :
    (l.filterMap f).length = (l.filter (fun x => (f x).isSome)).length := by
  induction l with
  | nil => rfl
  | cons a t ih =>
      cases h : f a <;> simp [List.filterMap_cons, List.filter_cons, h, ih]

/-- Zipping a list with itself pairs each element with itself. -/
theorem zip_self_eq_map (l : List α) : l.zip l = l.map (fun x => (x, x)) := by
  induction l with
  | nil => rfl
  | cons a t ih => simp [List.zip_cons_cons, ih]

/-- Conversion of an all-numeric sample list succeeds with its values. -/
theorem floatAll_map_num (qs : List ℚ) :
    floatAll (qs.map PyVal.num) = some qs := by
  induction qs with
  | nil => rfl
  | cons q t ih => simp [floatAll, pyFloatOfVal, ih]

/-- Conversion fails as soon as one sample is non-numeric. -/
theorem floatAll_of_mem_other {s : List PyVal} (h : PyVal.other ∈ s) :
    floatAll s = none := by
  induction s with
  | nil => cases h
  | cons v vs ih =>
      rcases List.mem_cons.mp h with h1 | h2
      · cases v
        · cases h1
        · rfl
      · cases v <;> simp [floatAll, pyFloatOfVal, ih h2]

/- ## Claim theorems -/

/-- C1: the claim describes the `iqr` branch of `clean_distribution_data`
as computing `IQR = Q3 - Q1` per column and never raising; the code instead
executes `iqr_h = q3_h - iqr_h` (preprocessing.py line 255), reading the
local `iqr_h` before its first assignment, so for every input DataFrame the
call on an `iqr`-cleaned task (`spending`) raises `UnboundLocalError`.  This
theorem evaluates the embedded code: the branch is reached and fails
unconditionally. -/
theorem C1_iqr_distribution_always_raises (df : DFrame) :
    clean_distribution_data df "spending" =
      Except.error (PyErr.unboundLocal "iqr_h") := rfl

/-- C2: `calculate_ecdf` returns the null marker on an empty sample list or
any non-numeric sample/truth, and on a non-empty all-numeric list with
numeric truth returns `(#{s < t} + 0.5 * #{s = t}) / N`; consequently 1
when the truth exceeds every sample, 0 when it is below every sample, and
0.5 when it equals every sample. -/
theorem C2_calculate_ecdf_spec (s : List PyVal) (t : PyVal) :
    (s = [] → calculate_ecdf s t = none) ∧
    (PyVal.other ∈ s → calculate_ecdf s t = none) ∧
    (t = PyVal.other → calculate_ecdf s t = none) ∧
    (∀ qs tv, s = qs.map PyVal.num → t = PyVal.num tv → qs ≠ [] →
      calculate_ecdf s t =
        some (((qs.countP (fun x => decide (x < tv)) : ℚ) +
          (1 / 2 : ℚ) * (qs.countP (fun x => decide (x = tv)) : ℚ)) /
          (qs.length : ℚ)) ∧
      ((∀ x ∈ qs, x < tv) → calculate_ecdf s t = some 1) ∧
      ((∀ x ∈ qs, tv < x) → calculate_ecdf s t = some 0) ∧
      ((∀ x ∈ qs, x = tv) → calculate_ecdf s t = some (1 / 2))) := by
  refine ⟨fun hs => by simp [hs, calculate_ecdf], fun hmem => ?_,
    fun ht => ?_, fun qs tv hs ht hqs => ?_⟩
  · rcases s with _ | ⟨v, vs⟩
    · simp [calculate_ecdf]
    · simp [calculate_ecdf, floatAll_of_mem_other hmem]
  · subst ht
    rcases s with _ | ⟨v, vs⟩
    · simp [calculate_ecdf]
    · cases hfa : floatAll (v :: vs) <;> simp [calculate_ecdf, hfa]
  · subst hs; subst ht
    have hne : (qs.map PyVal.num) ≠ [] := by simpa using hqs
    have hlen : (qs.length : ℚ) ≠ 0 := by
      exact_mod_cast (by simpa using hqs : qs.length ≠ 0)
    have hmain : calculate_ecdf (qs.map PyVal.num) (PyVal.num tv) =
        some (((qs.countP (fun x => decide (x < tv)) : ℚ) +
          (1 / 2 : ℚ) * (qs.countP (fun x => decide (x = tv)) : ℚ)) /
          (qs.length : ℚ)) := by
      simp [calculate_ecdf, floatAll_map_num, hne]
    refine ⟨hmain, fun hlt => ?_, fun hgt => ?_, fun heq => ?_⟩
    · have h1 : qs.countP (fun x => decide (x < tv)) = qs.length :=
        List.countP_eq_length.mpr (fun x hx => by simpa using hlt x hx)
      have h2 : qs.countP (fun x => decide (x = tv)) = 0 :=
        List.countP_eq_zero.mpr (fun x hx => by
          simpa using ne_of_lt (hlt x hx))
      rw [hmain, h1, h2]
      congr 1
      push_cast
      field_simp
    · have h1 : qs.countP (fun x => decide (x < tv)) = 0 :=
        List.countP_eq_zero.mpr (fun x hx => by
          simpa using not_lt_of_gt (hgt x hx))
      have h2 : qs.countP (fun x => decide (x = tv)) = 0 :=
        List.countP_eq_zero.mpr (fun x hx => by
          simpa using ne_of_gt (hgt x hx))
      rw [hmain, h1, h2]
      norm_num
    · have h1 : qs.countP (fun x => decide (x < tv)) = 0 :=
        List.countP_eq_zero.mpr (fun x hx => by
          simpa using (heq x hx).ge.not_lt)
      have h2 : qs.countP (fun x => decide (x = tv)) = qs.length :=
        List.countP_eq_length.mpr (fun x hx => by simpa using heq x hx)
      rw [hmain, h1, h2]
      congr 1
      push_cast
      field_simp
      ring

/-- Witness for C2 at concrete inputs: each branch of the theorem
instantiated and evaluated. -/
theorem C2_witness :
    calculate_ecdf [] (PyVal.num 1) = none ∧
    calculate_ecdf [PyVal.other, PyVal.num 1] (PyVal.num 1) = none ∧
    calculate_ecdf [PyVal.num 1] PyVal.other = none ∧
    calculate_ecdf [PyVal.num 10, PyVal.num 20, PyVal.num 30]
      (PyVal.num 20) = some (1 / 2) ∧
    calculate_ecdf [PyVal.num 1, PyVal.num 2] (PyVal.num 3) = some 1 ∧
    calculate_ecdf [PyVal.num 1, PyVal.num 2] (PyVal.num 0) = some 0 ∧
    calculate_ecdf [PyVal.num 5, PyVal.num 5] (PyVal.num 5) =
      some (1 / 2) := by
  refine ⟨(C2_calculate_ecdf_spec [] (PyVal.num 1)).1 rfl,
    (C2_calculate_ecdf_spec _ _).2.1 (by decide),
    (C2_calculate_ecdf_spec _ _).2.2.1 rfl, ?_, ?_, ?_, ?_⟩
  · have h := ((C2_calculate_ecdf_spec _ _).2.2.2 [10, 20, 30] 20 rfl rfl
      (by decide)).1
    show calculate_ecdf (List.map PyVal.num [10, 20, 30]) (PyVal.num 20) =
      some (1 / 2)
    rw [h]; norm_num
  · exact ((C2_calculate_ecdf_spec _ _).2.2.2 [1, 2] 3 rfl rfl
      (by decide)).2.1 (by decide)
  · exact ((C2_calculate_ecdf_spec _ _).2.2.2 [1, 2] 0 rfl rfl
      (by decide)).2.2.1 (by decide)
  · exact ((C2_calculate_ecdf_spec _ _).2.2.2 [5, 5] 5 rfl rfl
      (by decide)).2.2.2 (by decide)

/-- Every masked pair drawn from an array zipped with itself is a diagonal
pair. -/
theorem validPairs_self_diag {a : List PFloat} {p : ℚ × ℚ}
    (hp : p ∈ validPairs a a) : p.1 = p.2 := by
  rcases List.mem_filterMap.mp hp with ⟨pr, hmem, hmatch⟩
  rw [zip_self_eq_map] at hmem
  rcases List.mem_map.mp hmem with ⟨c, _, rfl⟩
  rcases c with _ | q
  · simp at hmatch
  · simp at hmatch
    simp [← hmatch]

/-- A non-NaN entry contributes its diagonal pair to the self-mask. -/
theorem mem_validPairs_self {a : List PFloat} {x : ℚ} (hx : some x ∈ a) :
    (x, x) ∈ validPairs a a := by
  refine List.mem_filterMap.mpr ⟨(some x, some x), ?_, rfl⟩
  rw [zip_self_eq_map]
  exact List.mem_map.mpr ⟨some x, hx, rfl⟩

/-- Counterexample to C7 as stated: the empty array is a numeric array, yet
`rmse([],[])` and `mae([],[])` are NaN (no valid pair remains), not 0. -/
theorem C7_counterexample :
    compute_rmse [] [] = none ∧ compute_mae [] [] = none ∧
    (none : Option ℝ) ≠ some 0 ∧ (none : PFloat) ≠ some 0 := by
  refine ⟨?_, rfl, by simp, by simp⟩
  simp [compute_rmse, meanSquaredOf, validPairs]

/-- C7 (amended): for every numeric array with at least one non-NaN entry,
`rmse(a,a) = 0` and `mae(a,a) = 0`; both metrics drop index-aligned pairs
containing a NaN before reducing and return NaN when no pair remains (so on
an empty or all-NaN array the self-comparison is NaN, not 0). -/
theorem C7_mae_rmse_amended (a b : List PFloat) :
    ((∃ x : ℚ, some x ∈ a) →
      compute_mae a a = some 0 ∧ compute_rmse a a = some 0) ∧
    (validPairs a b = [] →
      compute_mae a b = none ∧ compute_rmse a b = none) := by
  constructor
  · rintro ⟨x, hx⟩
    have hne : ¬ (validPairs a a).isEmpty := by
      rw [List.isEmpty_iff]
      intro hempty
      have := mem_validPairs_self hx
      rw [hempty] at this
      cases this
    have habs : ((validPairs a a).map (fun p => |p.1 - p.2|)).sum = 0 := by
      apply List.sum_eq_zero
      intro y hy
      rcases List.mem_map.mp hy with ⟨p, hp, rfl⟩
      rw [validPairs_self_diag hp]
      simp
    have hsq : ((validPairs a a).map (fun p => (p.1 - p.2) ^ 2)).sum = 0 := by
      apply List.sum_eq_zero
      intro y hy
      rcases List.mem_map.mp hy with ⟨p, hp, rfl⟩
      rw [validPairs_self_diag hp]
      simp
    constructor
    · simp [compute_mae, hne, habs]
    · simp [compute_rmse, meanSquaredOf, hne, hsq]
  · intro hvp
    constructor
    · simp [compute_mae, hvp]
    · simp [compute_rmse, meanSquaredOf, hvp]

/-- Witness for C7 at concrete inputs: one non-NaN entry forces the zero
self-distance, and a NaN-only alignment yields NaN. -/
theorem C7_witness :
    (compute_mae [some 1, none] [some 1, none] = some 0 ∧
      compute_rmse [some 1, none] [some 1, none] = some 0) ∧
    (compute_mae [some 1] [none] = none ∧
      compute_rmse [some 1] [none] = none) := by
  exact ⟨(C7_mae_rmse_amended [some 1, none] [some 1, none]).1
      ⟨1, by simp⟩,
    (C7_mae_rmse_amended [some 1] [none]).2 rfl⟩

/-- C10: `get_task_config` reads the global `TASK_CONFIGS` table without
mutating it: the state component of the call is the unchanged table (the
source copies the stored dict before merging overrides into the copy), the
returned config is exactly that merged copy, and a later override-free call
for the same task returns the pristine stored configuration — mutation of
the previously returned dict or previously passed overrides cannot leak into
it. -/
theorem C10_get_task_config_no_mutation (name : String) (ov : Option Config)
    (base : Config) (h : dictLookup TASK_CONFIGS name = some base) :
    get_task_config_st TASK_CONFIGS name ov =
      Except.ok (dictUpdate (dictCopy base) (ov.getD []), TASK_CONFIGS) ∧
    (∀ c1 tbl1,
      get_task_config_st TASK_CONFIGS name ov = Except.ok (c1, tbl1) →
        tbl1 = TASK_CONFIGS ∧
        get_task_config_st tbl1 name none = Except.ok (base, TASK_CONFIGS)) := by
  constructor
  · simp [get_task_config_st, h]
  · intro c1 tbl1 h1
    simp [get_task_config_st, h] at h1
    refine ⟨h1.2.symm, ?_⟩
    rw [h1.2.symm]
    simp [get_task_config_st, h, dictUpdate, dictCopy]

/-- Witness for C10: an override call for `labor` merges into a fresh copy
and leaves the table unchanged, and the following no-override call still
sees the original configuration. -/
theorem C10_witness :
    get_task_config_st TASK_CONFIGS "labor"
        (some [("cleaning_method", ConfigVal.str "none")]) =
      Except.ok
        ([("llm_col", ConfigVal.str "llm_response"),
          ("human_col", ConfigVal.str "oo2c3"),
          ("file_pattern", ConfigVal.str "labor_*_withHumanData.csv"),
          ("description", ConfigVal.str "Job acceptance probability (0-100)"),
          ("cleaning_method", ConfigVal.str "none"),
          ("valid_range", ConfigVal.vrange 0 100)], TASK_CONFIGS) ∧
    get_task_config_st TASK_CONFIGS "labor" none =
      Except.ok
        ([("llm_col", ConfigVal.str "llm_response"),
          ("human_col", ConfigVal.str "oo2c3"),
          ("file_pattern", ConfigVal.str "labor_*_withHumanData.csv"),
          ("description", ConfigVal.str "Job acceptance probability (0-100)"),
          ("cleaning_method", ConfigVal.str "range"),
          ("valid_range", ConfigVal.vrange 0 100)], TASK_CONFIGS) := by
  have h := C10_get_task_config_no_mutation "labor"
    (some [("cleaning_method", ConfigVal.str "none")])
    [("llm_col", ConfigVal.str "llm_response"),
     ("human_col", ConfigVal.str "oo2c3"),
     ("file_pattern", ConfigVal.str "labor_*_withHumanData.csv"),
     ("description", ConfigVal.str "Job acceptance probability (0-100)"),
     ("cleaning_method", ConfigVal.str "range"),
     ("valid_range", ConfigVal.vrange 0 100)] rfl
  exact ⟨by rw [h.1]; rfl, (h.2 _ _ h.1).2⟩

/-- C4: when cleaning returns zero rows (pointwise), or zero rows / zero
valid ECDF records (distribution), `evaluate_task` returns the structured
record `{error: message, cleaning_stats}` — the `errRec` shape carrying the
cleaning statistics and no metric field — instead of raising. -/
theorem C4_degenerate_error_record (df : DFrame) (task : String) (C : ℚ)
    (d : DFrame) (st : CleanStats) :
    (clean_task_data df task = Except.ok (d, st) → st.final_rows = 0 →
      evaluate_pointwise_task df task =
        Except.ok (EvalOut.errRec "No valid samples after cleaning" st)) ∧
    (clean_distribution_data df task = Except.ok (d, st) →
      st.final_rows = 0 →
      evaluate_distribution_task C df task =
        Except.ok (EvalOut.errRec "No valid samples after cleaning" st)) ∧
    (clean_distribution_data df task = Except.ok (d, st) →
      st.final_rows ≠ 0 → distEvalRecords C d.rows = [] →
      evaluate_distribution_task C df task =
        Except.ok (EvalOut.errRec "No valid ECDF calculation results" st)) := by
  refine ⟨fun hc h0 => ?_, fun hc h0 => ?_, fun hc h0 hrec => ?_⟩
  · simp [evaluate_pointwise_task, hc, h0]
  · simp [evaluate_distribution_task, hc, h0]
  · simp [evaluate_distribution_task, hc, h0, hrec]

/-- Witness for C4: a one-row frame whose ground truth is missing cleans to
zero rows, and both evaluators return the structured error record. -/
theorem C4_witness :
    evaluate_pointwise_task ⟨false, [⟨Cell.num 5, Cell.na, 0⟩]⟩ "labor" =
      Except.ok (EvalOut.errRec "No valid samples after cleaning"
        ⟨1, 1, 0, 0, 0, 0⟩) ∧
    evaluate_distribution_task (9 / 10)
        ⟨false, [⟨Cell.num 5, Cell.na, 0⟩]⟩ "labor" =
      Except.ok (EvalOut.errRec "No valid samples after cleaning"
        ⟨1, 1, 0, 0, 0, 0⟩) := by
  have h := C4_degenerate_error_record ⟨false, [⟨Cell.num 5, Cell.na, 0⟩]⟩
    "labor" (9 / 10) ⟨false, []⟩ ⟨1, 1, 0, 0, 0, 0⟩
  exact ⟨h.1 rfl rfl, h.2.1 rfl rfl⟩

/-- Pointwise averaging of two zipped lists is symmetric. -/
theorem zipAvg_comm (l1 l2 : List ℚ) :
    (l1.zip l2).map (fun pr => (1 / 2 : ℚ) * (pr.1 + pr.2)) =
    (l2.zip l1).map (fun pr => (1 / 2 : ℚ) * (pr.1 + pr.2)) := by
  induction l1 generalizing l2 with
  | nil => cases l2 <;> rfl
  | cons a t ih =>
      cases l2 with
      | nil => rfl
      | cons b u =>
          simp only [List.zip_cons_cons, List.map_cons]
          rw [ih u, add_comm a b]

/-- The implicit histogram range is symmetric in the two sample sets. -/
theorem jsRange_comm (a b : List ℚ) : jsRange a b = jsRange b a := by
  simp only [jsRange, min_comm (listMinQ a), max_comm (listMaxQ a)]

/-- Swapping the two histograms leaves the JS sum unchanged: the mixture
`M` is symmetric and the two KL halves trade places. -/
theorem jsFromHists_comm (A B : List ℚ) : jsFromHists A B = jsFromHists B A := by
  simp only [jsFromHists]
  rw [zipAvg_comm A B]
  exact add_comm _ _

/-- C8: `js_divergence` is symmetric in its two sample arrays, for every
bin count and both with and without an explicit histogram range (per-set
NaN removal, the shared min/max range, epsilon renormalization and the
mixture `M = (P+Q)/2` are all symmetric constructions). -/
theorem C8_js_divergence_symm (p q : List PFloat) (bins : ℕ)
    (rv : Option (ℚ × ℚ)) :
    compute_js_divergence p q bins rv = compute_js_divergence q p bins rv := by
  rcases rv with _ | r <;>
    simp only [compute_js_divergence] <;>
    rw [Bool.or_comm ((q.filterMap id).isEmpty)] <;>
    cases hb : ((p.filterMap id).isEmpty || (q.filterMap id).isEmpty)
  · rw [jsRange_comm (List.filterMap id q) (List.filterMap id p)]
    simp only [Bool.false_eq_true, if_false]
    exact congrArg some (jsFromHists_comm _ _)
  · rw [if_pos (rfl : (true : Bool) = true),
      if_pos (rfl : (true : Bool) = true)]
  · simp only [Bool.false_eq_true, if_false]
    exact congrArg some (jsFromHists_comm _ _)
  · rw [if_pos (rfl : (true : Bool) = true),
      if_pos (rfl : (true : Bool) = true)]

/-- A concrete distribution-evaluation input: three respondents answering
`[10, 20, 30]` with ground truths 20 (ECDF 0.5, a hit), 40 (ECDF 1.0, a
miss) and 5 (ECDF 0.0, a miss). -/
def dfC3 : DFrame := ⟨false,
  [⟨Cell.text "[10, 20, 30]", Cell.num 20, 0⟩,
   ⟨Cell.text "[10, 20, 30]", Cell.num 40, 0⟩,
   ⟨Cell.text "[10, 20, 30]", Cell.num 5, 0⟩]⟩

/-- The cleaned rows of `dfC3` under the `labor` task. -/
def outRowsC3 : List Row :=
  [⟨Cell.plist [PyVal.num 10, PyVal.num 20, PyVal.num 30], Cell.num 20, 0⟩,
   ⟨Cell.plist [PyVal.num 10, PyVal.num 20, PyVal.num 30], Cell.num 40, 0⟩,
   ⟨Cell.plist [PyVal.num 10, PyVal.num 20, PyVal.num 30], Cell.num 5, 0⟩]

/-- Counterexample to C3 as stated: on `dfC3` the evaluator counts 1 hit
among 3 valid ECDF rows, so hits/valid is 1/3, but the reported
`coverage_rate` field is `round(1/3, 4) = 0.3333 ≠ 1/3` — the reported
value is the 4-decimal rounding of the ratio, not the ratio itself. -/
theorem C3_counterexample :
    evaluate_distribution_task (9 / 10) dfC3 "labor" =
      Except.ok (EvalOut.metrics
        ⟨some (1167 / 100), 3333 / 10000, 3, ⟨3, 0, 0, 0, 0, 3⟩⟩) ∧
    ((distEvalRecords (9 / 10) outRowsC3).filter
      (fun rec => rec.is_hit)).length = 1 ∧
    (distEvalRecords (9 / 10) outRowsC3).length = 3 ∧
    ((3333 : ℚ) / 10000) ≠ (1 : ℚ) / 3 := by
  refine ⟨by with_unfolding_all rfl, by with_unfolding_all rfl,
    by with_unfolding_all rfl, by norm_num⟩

/-- Inversion of a successful distribution evaluation: the metric record is
built from the `eval_results` of the cleaned rows. -/
theorem dist_eval_metrics_inv {C : ℚ} {df : DFrame} {task : String}
    {out : DFrame} {st : CleanStats} {m : DistMetrics}
    (hclean : clean_distribution_data df task = Except.ok (out, st))
    (heval : evaluate_distribution_task C df task =
      Except.ok (EvalOut.metrics m)) :
    m.coverage_rate =
      pyRound (coverageAggregate (distEvalRecords C out.rows)) 4 ∧
    m.cleaning_stats = st := by
  simp only [evaluate_distribution_task, hclean] at heval
  by_cases h0 : st.final_rows = 0
  · simp [h0] at heval
  · simp only [h0, if_false, ite_false] at heval
    by_cases hrec : (distEvalRecords C out.rows).isEmpty = true
    · simp [hrec] at heval
    · simp [hrec] at heval
      exact ⟨heval.symm ▸ rfl, heval.symm ▸ rfl⟩

/-- C3 (amended): every cleaned row with a list of samples and a computable
ECDF value `e` is classified as a hit exactly when
`(1-C)/2 ≤ e ≤ (1+C)/2` (default confidence level 0.90, bounds 0.05 and
0.95); the aggregate coverage is hits divided by the number of rows with a
valid ECDF value, and the reported `coverage_rate` field is that ratio
rounded half-to-even to 4 decimal places. -/
theorem C3_coverage_amended (C : ℚ) (df : DFrame) (task : String)
    (out : DFrame) (st : CleanStats) (m : DistMetrics)
    (hclean : clean_distribution_data df task = Except.ok (out, st))
    (heval : evaluate_distribution_task C df task =
      Except.ok (EvalOut.metrics m)) :
    (∀ r ∈ out.rows, ∀ s e, r.llm = Cell.plist s →
      calculate_ecdf s (cellToPyVal r.human) = some e →
      ∃ rec, distEvalRow C r = some rec ∧
        (rec.is_hit = true ↔ ((1 - C) / 2 ≤ e ∧ e ≤ (1 + C) / 2))) ∧
    m.coverage_rate =
      pyRound (coverageAggregate (distEvalRecords C out.rows)) 4 ∧
    coverageAggregate (distEvalRecords C out.rows) =
      (((distEvalRecords C out.rows).filter
          (fun rec => rec.is_hit)).length : ℚ) /
        ((out.rows.filter (fun r => (distEvalRow C r).isSome)).length : ℚ) ∧
    distConfidenceOf [] = 9 / 10 ∧
    (1 - distConfidenceOf []) / 2 = 1 / 20 ∧
    (1 + distConfidenceOf []) / 2 = 19 / 20 := by
  refine ⟨?_, (dist_eval_metrics_inv hclean heval).1, ?_, ?_, ?_, ?_⟩
  · intro r hr s e hllm hecdf
    refine ⟨⟨decide ((1 - C) / 2 ≤ e) && decide (e ≤ (1 + C) / 2),
      (cellToFloat r.human).getD 0, pyMeanList s⟩, ?_, ?_⟩
    · simp [distEvalRow, hllm, hecdf]
    · simp [Bool.and_eq_true, decide_eq_true_eq]
  · rw [coverageAggregate, distEvalRecords, length_filterMap_eq]
  · norm_num [distConfidenceOf, dictLookup]
  · norm_num [distConfidenceOf, dictLookup]
  · norm_num [distConfidenceOf, dictLookup]

/-- Witness for C3 (amended) on `dfC3`: the first cleaned row has ECDF 0.5
and is classified through the central-interval test, and the reported
coverage is the rounded aggregate. -/
theorem C3_witness :
    (∃ rec, distEvalRow (9 / 10)
        ⟨Cell.plist [PyVal.num 10, PyVal.num 20, PyVal.num 30],
          Cell.num 20, 0⟩ = some rec ∧
        (rec.is_hit = true ↔
          ((1 - 9 / 10 : ℚ) / 2 ≤ 1 / 2 ∧ (1 / 2 : ℚ) ≤ (1 + 9 / 10) / 2))) ∧
    (3333 / 10000 : ℚ) =
      pyRound (coverageAggregate (distEvalRecords (9 / 10) outRowsC3)) 4 ∧
    distConfidenceOf [] = 9 / 10 := by
  have h := C3_coverage_amended (9 / 10) dfC3 "labor" ⟨false, outRowsC3⟩
    ⟨3, 0, 0, 0, 0, 3⟩ ⟨some (1167 / 100), 3333 / 10000, 3, ⟨3, 0, 0, 0, 0, 3⟩⟩
    (by with_unfolding_all rfl) (by with_unfolding_all rfl)
  exact ⟨h.1 _ (by simp [outRowsC3])
      [PyVal.num 10, PyVal.num 20, PyVal.num 30] (1 / 2) rfl
      (by with_unfolding_all rfl),
    h.2.1, h.2.2.2.1⟩

/-- The think-strip step preserves row count. -/
theorem llmCleanStep_len (rows : List Row) :
    (llmCleanStep rows).length = rows.length := List.length_map _ _

/-- The human-null drop accounts for every row. -/
theorem humanNullStep_len (rows : List Row) :
    (humanNullStep rows).2 + (humanNullStep rows).1.length = rows.length :=
  length_filter_split _ rows

/-- Numeric coercion preserves row count. -/
theorem pointCoerce_len (rows : List Row) :
    (pointCoerce rows).length = rows.length := List.length_map _ _

/-- The `llm_invalid` drop accounts for every row. -/
theorem llmInvalidStep_len (rows : List Row) :
    (llmInvalidStep rows).2 + (llmInvalidStep rows).1.length = rows.length :=
  length_filter_split _ rows

/-- Point-mode range filtering accounts for every row. -/
theorem pointRangeStep_len (lo hi : ℚ) (rows : List Row) :
    (pointRangeStep lo hi rows).2 + (pointRangeStep lo hi rows).1.length =
      rows.length := by
  have h := length_filter_split (fun r => rangeKeep lo hi r.llm) rows
  simp only [pointRangeStep]
  omega

/-- Point-mode IQR filtering accounts for every row. -/
theorem pointIqrStep_len (rows : List Row) :
    (pointIqrStep rows).2 + (pointIqrStep rows).1.length = rows.length := by
  have h := length_filter_split (pointIqrKeep rows) rows
  simp only [pointIqrStep]
  omega

/-- The final defensive NaN drop can only shrink the frame. -/
theorem dropnaBoth_len (rows : List Row) :
    (dropnaBoth rows).length ≤ rows.length := List.length_filter_le _ rows

/-- The list-parse step preserves row count. -/
theorem distParseStep_len (rows : List Row) :
    (distParseStep rows).length = rows.length := List.length_map _ _

/-- The distribution-mode human coercion drop can only shrink the frame. -/
theorem distHumanCoerce_len (rows : List Row) :
    (distHumanCoerce rows).length ≤ rows.length :=
  le_trans (List.length_filter_le _ _) (le_of_eq (List.length_map _ _))

/-- Distribution-mode range filtering accounts for every row. -/
theorem distRangeStep_len (lo hi : ℚ) (rows : List Row) :
    (distRangeStep lo hi rows).2 + (distRangeStep lo hi rows).1.length =
      rows.length := by
  have h := length_filter_split
    (fun r : Row => match r.llm with
      | Cell.plist xs => xs.isEmpty
      | _ => false)
    (rows.map (fun r =>
      { r with llm := Cell.plist (filterSamplesVal lo hi r.llm) }))
  have hlen := List.length_map rows (fun r =>
    { r with llm := Cell.plist (filterSamplesVal lo hi r.llm) })
  simp only [distRangeStep]
  omega

/-- C9: whenever a cleaning function returns, the statistics are coherent:
the counts are non-negative (they live in ℕ; stated here through ℤ casts),
`final_rows` is the length of the returned frame, at most one of the two
removal counters is non-zero (the policies are exclusive branches), and the
named counters plus the survivors never exceed `original_rows` — an
inequality rather than an equality, because the final defensive NaN drop
(point mode) and the human-column numeric coercion drop (distribution mode)
are not attributed to any counter. -/
theorem C9_cleaning_stats_invariants (df : DFrame) (task : String)
    (out : DFrame) (st : CleanStats)
    (h : clean_task_data df task = Except.ok (out, st) ∨
         clean_distribution_data df task = Except.ok (out, st)) :
    ((0 : ℤ) ≤ st.human_null ∧ (0 : ℤ) ≤ st.llm_invalid ∧
      (0 : ℤ) ≤ st.rows_removed_range ∧ (0 : ℤ) ≤ st.rows_removed_iqr ∧
      (0 : ℤ) ≤ st.final_rows ∧ (0 : ℤ) ≤ st.original_rows) ∧
    st.final_rows = out.rows.length ∧
    (st.rows_removed_range = 0 ∨ st.rows_removed_iqr = 0) ∧
    st.human_null + st.llm_invalid + st.rows_removed_range +
      st.rows_removed_iqr + st.final_rows ≤ st.original_rows ∧
    st.original_rows = df.rows.length := by
  refine ⟨⟨Int.ofNat_nonneg _, Int.ofNat_nonneg _, Int.ofNat_nonneg _,
    Int.ofNat_nonneg _, Int.ofNat_nonneg _, Int.ofNat_nonneg _⟩, ?_⟩
  rcases h with h | h
  · simp only [clean_task_data] at h
    cases hcfg : get_task_config task with
    | error e => rw [hcfg] at h; cases h
    | ok cfg =>
        rw [hcfg] at h
        dsimp only at h
        set S1 := llmCleanStep df.rows with hS1
        set s2 := humanNullStep S1 with hs2
        set S3 := pointCoerce s2.1 with hS3
        set s4 := llmInvalidStep S3 with hs4
        have l1 : S1.length = df.rows.length := hS1 ▸ llmCleanStep_len df.rows
        have l2 : s2.2 + s2.1.length = S1.length :=
          hs2 ▸ humanNullStep_len S1
        have l3 : S3.length = s2.1.length := hS3 ▸ pointCoerce_len s2.1
        have l4 : s4.2 + s4.1.length = S3.length :=
          hs4 ▸ llmInvalidStep_len S3
        by_cases hm1 : cfgCleaningMethod cfg = "range"
        · rw [if_pos hm1] at h
          set p5 := pointRangeStep (cfgValidRange cfg).1 (cfgValidRange cfg).2
            s4.1 with hp5
          have l5 : p5.2 + p5.1.length = s4.1.length :=
            hp5 ▸ pointRangeStep_len _ _ s4.1
          have l6 : (dropnaBoth p5.1).length ≤ p5.1.length :=
            dropnaBoth_len p5.1
          obtain ⟨hout, hst⟩ := Prod.ext_iff.mp (Except.ok.inj h)
          dsimp only at hout hst
          rw [← hst, ← hout]
          dsimp only
          exact ⟨rfl, Or.inr rfl, by omega, rfl⟩
        · by_cases hm2 : cfgCleaningMethod cfg = "iqr"
          · rw [if_neg hm1, if_pos hm2] at h
            set p5 := pointIqrStep s4.1 with hp5
            have l5 : p5.2 + p5.1.length = s4.1.length :=
              hp5 ▸ pointIqrStep_len s4.1
            have l6 : (dropnaBoth p5.1).length ≤ p5.1.length :=
              dropnaBoth_len p5.1
            obtain ⟨hout, hst⟩ := Prod.ext_iff.mp (Except.ok.inj h)
            dsimp only at hout hst
            rw [← hst, ← hout]
            dsimp only
            exact ⟨rfl, Or.inl rfl, by omega, rfl⟩
          · rw [if_neg hm1, if_neg hm2] at h
            have l6 : (dropnaBoth s4.1).length ≤ s4.1.length :=
              dropnaBoth_len s4.1
            obtain ⟨hout, hst⟩ := Prod.ext_iff.mp (Except.ok.inj h)
            dsimp only at hout hst
            rw [← hst, ← hout]
            dsimp only
            exact ⟨rfl, Or.inl rfl, by omega, rfl⟩
  · simp only [clean_distribution_data] at h
    cases hcfg : get_task_config task with
    | error e => rw [hcfg] at h; cases h
    | ok cfg =>
        rw [hcfg] at h
        dsimp only at h
        set S1 := llmCleanStep df.rows with hS1
        set s2 := humanNullStep S1 with hs2
        set S3 := distParseStep s2.1 with hS3
        set s4 := llmInvalidStep S3 with hs4
        set S5 := distHumanCoerce s4.1 with hS5
        have l1 : S1.length = df.rows.length := hS1 ▸ llmCleanStep_len df.rows
        have l2 : s2.2 + s2.1.length = S1.length :=
          hs2 ▸ humanNullStep_len S1
        have l3 : S3.length = s2.1.length := hS3 ▸ distParseStep_len s2.1
        have l4 : s4.2 + s4.1.length = S3.length :=
          hs4 ▸ llmInvalidStep_len S3
        have l5 : S5.length ≤ s4.1.length := hS5 ▸ distHumanCoerce_len s4.1
        by_cases hm1 : cfgCleaningMethod cfg = "range"
        · rw [if_pos hm1] at h
          set p6 := distRangeStep (cfgValidRange cfg).1 (cfgValidRange cfg).2
            S5 with hp6
          have l6 : p6.2 + p6.1.length = S5.length :=
            hp6 ▸ distRangeStep_len _ _ S5
          obtain ⟨hout, hst⟩ := Prod.ext_iff.mp (Except.ok.inj h)
          dsimp only at hout hst
          rw [← hst, ← hout]
          dsimp only
          exact ⟨rfl, Or.inr rfl, by omega, rfl⟩
        · by_cases hm2 : cfgCleaningMethod cfg = "iqr"
          · rw [if_neg hm1, if_pos hm2] at h
            cases h
          · rw [if_neg hm1, if_neg hm2] at h
            obtain ⟨hout, hst⟩ := Prod.ext_iff.mp (Except.ok.inj h)
            dsimp only at hout hst
            rw [← hst, ← hout]
            dsimp only
            exact ⟨rfl, Or.inl rfl, by omega, rfl⟩

/-- Witness for C9: the invariants instantiated on a small labor frame in
both cleaning modes (one range-removed row, one null ground truth, one
unparseable LLM cell). -/
theorem C9_witness :
    (⟨5, 1, 1, 1, 0, 2⟩ : CleanStats).final_rows =
        (2 : ℕ) ∧
    ((⟨5, 1, 1, 1, 0, 2⟩ : CleanStats).rows_removed_range = 0 ∨
      (⟨5, 1, 1, 1, 0, 2⟩ : CleanStats).rows_removed_iqr = 0) ∧
    (⟨5, 1, 1, 1, 0, 2⟩ : CleanStats).human_null +
        (⟨5, 1, 1, 1, 0, 2⟩ : CleanStats).llm_invalid +
        (⟨5, 1, 1, 1, 0, 2⟩ : CleanStats).rows_removed_range +
        (⟨5, 1, 1, 1, 0, 2⟩ : CleanStats).rows_removed_iqr +
        (⟨5, 1, 1, 1, 0, 2⟩ : CleanStats).final_rows ≤
      (⟨5, 1, 1, 1, 0, 2⟩ : CleanStats).original_rows := by
  have h := C9_cleaning_stats_invariants
    ⟨false, [⟨Cell.text "101", Cell.num 40, 0⟩,
             ⟨Cell.text "100", Cell.num 40, 0⟩,
             ⟨Cell.text "0", Cell.num 40, 0⟩,
             ⟨Cell.na, Cell.num 1, 0⟩,
             ⟨Cell.num 5, Cell.na, 0⟩]⟩ "labor"
    ⟨false, [⟨Cell.num 100, Cell.num 40, 0⟩, ⟨Cell.num 0, Cell.num 40, 0⟩]⟩
    ⟨5, 1, 1, 1, 0, 2⟩ (Or.inl (by with_unfolding_all rfl))
  exact ⟨h.2.1, h.2.2.1, h.2.2.2.1⟩

/-- A row whose human cell coerces to a number is never flagged by the
human-null mask: it is not NA, and a blank-after-strip string would fail the
numeric coercion. -/
theorem humanNull_false_of_numeric (rows : List Row) (r : Row) {h : ℚ}
    (hc : toNumericCell r.human = Cell.num h) :
    humanNullFlagged rows r = false := by
  rcases hr : r.human with _ | q | s | xs
  · rw [hr] at hc; simp [toNumericCell] at hc
  · simp [humanNullFlagged, hr, cellIsNA, isBlankStr]
  · have hblank : ¬ (trimChars s.data).isEmpty = true := by
      intro he
      rw [hr] at hc
      simp only [toNumericCell, pyFloatOfString, pyFloatOfChars,
        List.isEmpty_iff.mp he, parseUnsigned, List.takeWhile_nil,
        List.dropWhile_nil, List.isEmpty_nil] at hc
      simp at hc
    simp only [humanNullFlagged, hr, cellIsNA, isBlankStr,
      Bool.false_or]
    cases he : (trimChars s.data).isEmpty
    · simp [he]
    · exact absurd he hblank
  · rw [hr] at hc; simp [toNumericCell] at hc

/-- C5: under the `range` policy with interval `[lo, hi]`, a point-mode row
whose two cells coerce to numbers `h` and `v` survives the whole cleaning
exactly when `lo ≤ v ≤ hi` (boundary values are retained), and in
distribution mode each list element outside `[lo, hi]` is removed
individually — a row with a non-empty filtered list survives carrying that
filtered list, and every surviving row carries a non-empty list (a row is
dropped only when its filtered list became empty). -/
theorem C5_range_policy (df : DFrame) (task : String) (cfg : Config)
    (lo hi : ℚ)
    (hcfg : get_task_config task = Except.ok cfg)
    (hrange : cfgCleaningMethod cfg = "range")
    (hlohi : cfgValidRange cfg = (lo, hi)) :
    (∀ out st, clean_task_data df task = Except.ok (out, st) →
      ∀ r ∈ df.rows, ∀ h v,
        toNumericCell r.human = Cell.num h →
        toNumericCell (clean_llm_response r.llm) = Cell.num v →
        ((⟨Cell.num v, Cell.num h, r.date⟩ : Row) ∈ out.rows ↔
          (lo ≤ v ∧ v ≤ hi))) ∧
    (∀ out st, clean_distribution_data df task = Except.ok (out, st) →
      (∀ r ∈ df.rows, ∀ h xs,
        toNumericCell r.human = Cell.num h →
        extract_samples (clean_llm_response r.llm) = Cell.plist xs →
        filterSamplesVal lo hi (Cell.plist xs) ≠ [] →
        (⟨Cell.plist (filterSamplesVal lo hi (Cell.plist xs)),
          Cell.num h, r.date⟩ : Row) ∈ out.rows) ∧
      (∀ r' ∈ out.rows, ∃ ys, r'.llm = Cell.plist ys ∧ ys ≠ [])) := by
  constructor
  · intro out st hclean r hr h v hh hv
    simp only [clean_task_data] at hclean
    rw [hcfg] at hclean
    dsimp only at hclean
    rw [if_pos hrange, hlohi] at hclean
    dsimp only at hclean
    obtain ⟨hout, _⟩ := Prod.ext_iff.mp (Except.ok.inj hclean)
    dsimp only at hout
    rw [← hout]
    dsimp only
    constructor
    · intro hm
      simp only [dropnaBoth] at hm
      have h1 := (List.mem_filter.mp hm).1
      simp only [pointRangeStep] at h1
      have h2 := (List.mem_filter.mp h1).2
      simpa [rangeKeep] using h2
    · intro hcond
      have m1 : (⟨clean_llm_response r.llm, r.human, r.date⟩ : Row) ∈ llmCleanStep df.rows :=
        List.mem_map.mpr ⟨r, hr, rfl⟩
      have m2 : (⟨clean_llm_response r.llm, r.human, r.date⟩ : Row) ∈
          (humanNullStep (llmCleanStep df.rows)).1 := by
        simp only [humanNullStep]
        have hnull := humanNull_false_of_numeric (llmCleanStep df.rows)
          (⟨clean_llm_response r.llm, r.human, r.date⟩ : Row) hh
        exact List.mem_filter.mpr ⟨m1, by simp [hnull]⟩
      have m3 : (⟨Cell.num v, Cell.num h, r.date⟩ : Row) ∈
          pointCoerce (humanNullStep (llmCleanStep df.rows)).1 := by
        refine List.mem_map.mpr ⟨_, m2, ?_⟩
        simp [hv, hh]
      have m4 : (⟨Cell.num v, Cell.num h, r.date⟩ : Row) ∈
          (llmInvalidStep (pointCoerce
            (humanNullStep (llmCleanStep df.rows)).1)).1 := by
        simp only [llmInvalidStep]
        exact List.mem_filter.mpr ⟨m3, by simp [cellIsNA]⟩
      have m5 : (⟨Cell.num v, Cell.num h, r.date⟩ : Row) ∈
          (pointRangeStep lo hi (llmInvalidStep (pointCoerce
            (humanNullStep (llmCleanStep df.rows)).1)).1).1 := by
        simp only [pointRangeStep]
        exact List.mem_filter.mpr ⟨m4, by
          simp [rangeKeep, hcond.1, hcond.2]⟩
      simp only [dropnaBoth]
      exact List.mem_filter.mpr ⟨m5, by simp [cellIsNA]⟩
  · intro out st hclean
    simp only [clean_distribution_data] at hclean
    rw [hcfg] at hclean
    dsimp only at hclean
    rw [if_pos hrange, hlohi] at hclean
    dsimp only at hclean
    obtain ⟨hout, _⟩ := Prod.ext_iff.mp (Except.ok.inj hclean)
    dsimp only at hout
    constructor
    · intro r hr h xs hh hxs hne
      rw [← hout]
      dsimp only
      have m1 : (⟨clean_llm_response r.llm, r.human, r.date⟩ : Row) ∈ llmCleanStep df.rows :=
        List.mem_map.mpr ⟨r, hr, rfl⟩
      have m2 : (⟨clean_llm_response r.llm, r.human, r.date⟩ : Row) ∈
          (humanNullStep (llmCleanStep df.rows)).1 := by
        simp only [humanNullStep]
        have hnull := humanNull_false_of_numeric (llmCleanStep df.rows)
          (⟨clean_llm_response r.llm, r.human, r.date⟩ : Row) hh
        exact List.mem_filter.mpr ⟨m1, by simp [hnull]⟩
      have m3 : (⟨Cell.plist xs, r.human, r.date⟩ : Row) ∈
          distParseStep (humanNullStep (llmCleanStep df.rows)).1 := by
        refine List.mem_map.mpr ⟨_, m2, ?_⟩
        simp [hxs]
      have m4 : (⟨Cell.plist xs, r.human, r.date⟩ : Row) ∈
          (llmInvalidStep (distParseStep
            (humanNullStep (llmCleanStep df.rows)).1)).1 := by
        simp only [llmInvalidStep]
        exact List.mem_filter.mpr ⟨m3, by simp [cellIsNA]⟩
      have m5 : (⟨Cell.plist xs, Cell.num h, r.date⟩ : Row) ∈
          distHumanCoerce (llmInvalidStep (distParseStep
            (humanNullStep (llmCleanStep df.rows)).1)).1 := by
        simp only [distHumanCoerce]
        refine List.mem_filter.mpr ⟨List.mem_map.mpr ⟨_, m4, ?_⟩,
          by simp [cellIsNA]⟩
        simp [hh]
      simp only [distRangeStep]
      refine List.mem_filter.mpr ⟨List.mem_map.mpr ⟨_, m5, rfl⟩, ?_⟩
      simp only [Bool.not_eq_true']
      simpa [List.isEmpty_iff] using hne
    · intro r' hr'
      rw [← hout] at hr'
      dsimp only at hr'
      simp only [distRangeStep] at hr'
      have h1 := (List.mem_filter.mp hr').1
      have h2 := (List.mem_filter.mp hr').2
      rcases List.mem_map.mp h1 with ⟨s, _, rfl⟩
      refine ⟨filterSamplesVal lo hi s.llm, rfl, ?_⟩
      simp only [Bool.not_eq_true'] at h2
      simpa [List.isEmpty_iff] using h2

/-- Witness for C5 on the labor range `[0, 100]`: the boundary value 0 is
retained, 101 is dropped, and in distribution mode `[50, 200]` survives as
`[50]` while every surviving row carries a non-empty list. -/
theorem C5_witness :
    ((⟨Cell.num 0, Cell.num 40, 0⟩ : Row) ∈
      [(⟨Cell.num 0, Cell.num 40, 0⟩ : Row)]) ∧
    ¬ ((⟨Cell.num 101, Cell.num 40, 0⟩ : Row) ∈
      [(⟨Cell.num 0, Cell.num 40, 0⟩ : Row)]) ∧
    ((⟨Cell.plist [PyVal.num 50], Cell.num 40, 0⟩ : Row) ∈
      [(⟨Cell.plist [PyVal.num 50], Cell.num 40, 0⟩ : Row)]) ∧
    (∀ r' ∈ [(⟨Cell.plist [PyVal.num 50], Cell.num 40, 0⟩ : Row)],
      ∃ ys, r'.llm = Cell.plist ys ∧ ys ≠ []) := by
  have h := C5_range_policy
    ⟨false, [⟨Cell.text "0", Cell.num 40, 0⟩,
             ⟨Cell.text "101", Cell.num 40, 0⟩]⟩ "labor"
    [("llm_col", ConfigVal.str "llm_response"),
     ("human_col", ConfigVal.str "oo2c3"),
     ("file_pattern", ConfigVal.str "labor_*_withHumanData.csv"),
     ("description", ConfigVal.str "Job acceptance probability (0-100)"),
     ("cleaning_method", ConfigVal.str "range"),
     ("valid_range", ConfigVal.vrange 0 100)]
    0 100 rfl rfl rfl
  have hd := C5_range_policy
    ⟨false, [⟨Cell.text "[50, 200]", Cell.num 40, 0⟩,
             ⟨Cell.text "[300]", Cell.num 40, 0⟩]⟩ "labor"
    [("llm_col", ConfigVal.str "llm_response"),
     ("human_col", ConfigVal.str "oo2c3"),
     ("file_pattern", ConfigVal.str "labor_*_withHumanData.csv"),
     ("description", ConfigVal.str "Job acceptance probability (0-100)"),
     ("cleaning_method", ConfigVal.str "range"),
     ("valid_range", ConfigVal.vrange 0 100)]
    0 100 rfl rfl rfl
  have hp := h.1 ⟨false, [⟨Cell.num 0, Cell.num 40, 0⟩]⟩
    ⟨2, 0, 0, 1, 0, 1⟩ (by with_unfolding_all rfl)
  have hq := hd.2 ⟨false, [⟨Cell.plist [PyVal.num 50], Cell.num 40, 0⟩]⟩
    ⟨2, 0, 0, 1, 0, 1⟩ (by with_unfolding_all rfl)
  refine ⟨?_, ?_, ?_, hq.2⟩
  · exact (hp ⟨Cell.text "0", Cell.num 40, 0⟩ (by simp) 40 0
      (by with_unfolding_all rfl) (by with_unfolding_all rfl)).mpr
      (by norm_num)
  · intro hmem
    have := (hp ⟨Cell.text "101", Cell.num 40, 0⟩ (by simp) 40 101
      (by with_unfolding_all rfl) (by with_unfolding_all rfl)).mp hmem
    norm_num at this
  · have := hq.1 ⟨Cell.text "[50, 200]", Cell.num 40, 0⟩ (by simp) 40
      [PyVal.num 50, PyVal.num 200] (by with_unfolding_all rfl)
      (by with_unfolding_all rfl)
    have hfs : filterSamplesVal 0 100
        (Cell.plist [PyVal.num 50, PyVal.num 200]) = [PyVal.num 50] := by
      with_unfolding_all rfl
    rw [hfs] at this
    exact this (by simp)

/-- Entries of an ascending-sorted list are monotone in the index. -/
theorem sorted_getD_mono {s : List ℚ} (hs : List.Sorted (· ≤ ·) s)
    {i j : ℕ} (hij : i ≤ j) (hj : j < s.length) :
    s.getD i 0 ≤ s.getD j 0 := by
  have hi : i < s.length := lt_of_le_of_lt hij hj
  rw [List.getD_eq_getElem s 0 hi, List.getD_eq_getElem s 0 hj]
  have h := List.Sorted.rel_get_of_le hs
    (show (⟨i, hi⟩ : Fin s.length) ≤ ⟨j, hj⟩ from hij)
  simpa using h

/-- The linear-interpolation quantile of a sorted list is monotone in the
requested probability: the pandas `Q1` never exceeds `Q3`. -/
theorem quantileSorted_mono {s : List ℚ} (hs : List.Sorted (· ≤ ·) s)
    {q1 q2 a b : ℚ} (h0 : 0 ≤ q1) (h12 : q1 ≤ q2) (h1 : q2 ≤ 1)
    (ha : quantileSorted s q1 = some a) (hb : quantileSorted s q2 = some b) :
    a ≤ b := by
  have hne : s.isEmpty = false := by
    cases hemp : s.isEmpty
    · rfl
    · rw [quantileSorted, hemp] at ha
      simp at ha
  simp only [quantileSorted, hne, Bool.false_eq_true, if_false,
    Option.some.injEq] at ha hb
  have hn : 1 ≤ s.length := by
    cases s with
    | nil => simp at hne
    | cons x t => simp
  have hN : (0 : ℚ) ≤ (s.length : ℚ) - 1 := by
    have : (1 : ℚ) ≤ (s.length : ℚ) := by exact_mod_cast hn
    linarith
  have hh0 : 0 ≤ q1 * ((s.length : ℚ) - 1) := mul_nonneg h0 hN
  have hh0b : 0 ≤ q2 * ((s.length : ℚ) - 1) :=
    mul_nonneg (le_trans h0 h12) hN
  have hh12 : q1 * ((s.length : ℚ) - 1) ≤ q2 * ((s.length : ℚ) - 1) :=
    mul_le_mul_of_nonneg_right h12 hN
  have hh2N : q2 * ((s.length : ℚ) - 1) ≤ (s.length : ℚ) - 1 := by
    calc q2 * ((s.length : ℚ) - 1) ≤ 1 * ((s.length : ℚ) - 1) :=
          mul_le_mul_of_nonneg_right h1 hN
      _ = (s.length : ℚ) - 1 := one_mul _
  set hq1 : ℚ := q1 * ((s.length : ℚ) - 1) with hdef1
  set hq2 : ℚ := q2 * ((s.length : ℚ) - 1) with hdef2
  set i₁ : ℕ := (Int.floor hq1).toNat with hi1def
  set i₂ : ℕ := (Int.floor hq2).toNat with hi2def
  have hcast1 : ((i₁ : ℤ) : ℚ) = ((Int.floor hq1 : ℤ) : ℚ) := by
    rw [hi1def, Int.toNat_of_nonneg (Int.floor_nonneg.mpr hh0)]
  have hcast2 : ((i₂ : ℤ) : ℚ) = ((Int.floor hq2 : ℤ) : ℚ) := by
    rw [hi2def, Int.toNat_of_nonneg (Int.floor_nonneg.mpr hh0b)]
  have hfl1 : (i₁ : ℚ) ≤ hq1 := by
    have h := Int.floor_le hq1
    rw [← hcast1] at h
    exact_mod_cast h
  have hfl1b : hq1 < (i₁ : ℚ) + 1 := by
    have h := Int.lt_floor_add_one hq1
    rw [← hcast1] at h
    exact_mod_cast h
  have hfl2 : (i₂ : ℚ) ≤ hq2 := by
    have h := Int.floor_le hq2
    rw [← hcast2] at h
    exact_mod_cast h
  have hi12 : i₁ ≤ i₂ := by
    rw [hi1def, hi2def]
    exact Int.toNat_le_toNat (Int.floor_le_floor hh12)
  have hi1n : i₁ ≤ s.length - 1 := by
    have hq : (i₁ : ℚ) ≤ (s.length : ℚ) - 1 :=
      le_trans hfl1 (le_trans hh12 hh2N)
    have hq' : (i₁ : ℚ) ≤ ((s.length - 1 : ℕ) : ℚ) := by
      rwa [Nat.cast_sub hn, Nat.cast_one]
    exact_mod_cast hq'
  have hi2n : i₂ ≤ s.length - 1 := by
    have hq : (i₂ : ℚ) ≤ (s.length : ℚ) - 1 := le_trans hfl2 hh2N
    have hq' : (i₂ : ℚ) ≤ ((s.length - 1 : ℕ) : ℚ) := by
      rwa [Nat.cast_sub hn, Nat.cast_one]
    exact_mod_cast hq'
  have hn1lt : s.length - 1 < s.length := Nat.sub_lt (by omega) one_pos
  rcases Nat.lt_or_ge i₁ i₂ with hlt | hge
  · -- strictly smaller floor: rise to the next knot
    have hi1'le : min (i₁ + 1) (s.length - 1) ≤ i₂ :=
      le_trans (min_le_left _ _) hlt
    have hB1A2 : s.getD (min (i₁ + 1) (s.length - 1)) 0 ≤ s.getD i₂ 0 :=
      sorted_getD_mono hs hi1'le (lt_of_le_of_lt hi2n hn1lt)
    have hA1B1 : s.getD i₁ 0 ≤ s.getD (min (i₁ + 1) (s.length - 1)) 0 :=
      sorted_getD_mono hs (le_min (Nat.le_succ i₁) hi1n)
        (lt_of_le_of_lt (min_le_right _ _) hn1lt)
    have hA2B2 : s.getD i₂ 0 ≤ s.getD (min (i₂ + 1) (s.length - 1)) 0 :=
      sorted_getD_mono hs (le_min (Nat.le_succ i₂) hi2n)
        (lt_of_le_of_lt (min_le_right _ _) hn1lt)
    rw [← ha, ← hb]
    have hstep1 : s.getD i₁ 0 + (hq1 - (i₁ : ℚ)) *
        (s.getD (min (i₁ + 1) (s.length - 1)) 0 - s.getD i₁ 0) ≤
        s.getD (min (i₁ + 1) (s.length - 1)) 0 := by
      nlinarith [hA1B1, hfl1b, hfl1]
    have hstep2 : s.getD i₂ 0 ≤ s.getD i₂ 0 + (hq2 - (i₂ : ℚ)) *
        (s.getD (min (i₂ + 1) (s.length - 1)) 0 - s.getD i₂ 0) := by
      nlinarith [hA2B2, hfl2]
    linarith [hstep1, hB1A2, hstep2]
  · -- equal floors (i₂ ≤ i₁ together with i₁ ≤ i₂)
    have heq : i₁ = i₂ := le_antisymm hi12 hge
    rw [← ha, ← hb, ← heq]
    have hAB : s.getD i₁ 0 ≤ s.getD (min (i₁ + 1) (s.length - 1)) 0 :=
      sorted_getD_mono hs (le_min (Nat.le_succ i₁) hi1n)
        (lt_of_le_of_lt (min_le_right _ _) hn1lt)
    nlinarith [hAB, hh12]

/-- The first quartile of a column never exceeds the third quartile. -/
theorem quantileOf_q1_le_q3 (cells : List Cell) {a b : ℚ}
    (h1 : quantileOf cells (1 / 4) = some a)
    (h3 : quantileOf cells (3 / 4) = some b) : a ≤ b := by
  have hs : List.Sorted (· ≤ ·)
      (List.insertionSort (· ≤ ·) (cells.filterMap cellNum)) :=
    List.sorted_insertionSort _ _
  exact quantileSorted_mono hs (by norm_num) (by norm_num) (by norm_num) h1 h3

/-- The one-sided IQR fence sits at or above the third quartile. -/
theorem iqrFence_ge_q3 (cells : List Cell) {q3 F : ℚ}
    (h3 : quantileOf cells (3 / 4) = some q3)
    (hF : iqrFence cells = some F) : q3 ≤ F := by
  rw [iqrFence] at hF
  cases h1 : quantileOf cells (1 / 4) with
  | none => rw [h1, h3] at hF; cases hF
  | some q1 =>
      rw [h1, h3] at hF
      have hq13 : q1 ≤ q3 := quantileOf_q1_le_q3 cells h1 h3
      have : F = q3 + 15 * (q3 - q1) := (Option.some.inj hF).symm
      rw [this]
      nlinarith [hq13]

/-- When the third quartile of a column exists, the IQR fence exists and
sits at or above it. -/
theorem iqrFence_of_q3 (cells : List Cell) {q3 : ℚ}
    (h3 : quantileOf cells (3 / 4) = some q3) :
    ∃ F, iqrFence cells = some F ∧ q3 ≤ F := by
  have hne : (List.insertionSort (· ≤ ·)
      (cells.filterMap cellNum)).isEmpty = false := by
    cases hemp : (List.insertionSort (· ≤ ·)
        (cells.filterMap cellNum)).isEmpty
    · rfl
    · rw [quantileOf, quantileSorted, hemp] at h3
      simp at h3
  have h1 : (quantileOf cells (1 / 4)).isSome := by
    rw [quantileOf, quantileSorted, hne]
    simp
  obtain ⟨q1, hq1⟩ := Option.isSome_iff_exists.mp h1
  refine ⟨q3 + 15 * (q3 - q1), ?_, ?_⟩
  · rw [iqrFence, hq1, h3]
  · nlinarith [quantileOf_q1_le_q3 cells hq1 h3]

/-- The input frame of the C6 counterexample: one row whose ground truth is
the non-numeric string `"x"` (NaN after coercion) with the small LLM value
1, plus four benign rows. -/
def dfC6 : DFrame := ⟨false,
  [⟨Cell.num 1, Cell.text "x", 0⟩,
   ⟨Cell.num 1, Cell.num 1, 0⟩,
   ⟨Cell.num 2, Cell.num 2, 0⟩,
   ⟨Cell.num 3, Cell.num 3, 0⟩,
   ⟨Cell.num 4, Cell.num 4, 0⟩]⟩

/-- Counterexample to C6 as stated: in `dfC6` the row whose human value
failed numeric coercion (NaN) is removed by the point-mode IQR mask although
its LLM value 1 sits at or below the LLM third quartile 3 and it has no
human value at all — so "every removed row has a value above Q3 in at least
one of the two series" is false on the code. -/
theorem C6_counterexample :
    ¬ (∀ (df : DFrame) (r : Row) (q3h q3l : ℚ),
        quantileOf ((pointPrefiltered df).map Row.human) (3 / 4) = some q3h →
        quantileOf ((pointPrefiltered df).map Row.llm) (3 / 4) = some q3l →
        r ∈ pointPrefiltered df →
        pointIqrKeep (pointPrefiltered df) r = false →
        ((∃ x, r.human = Cell.num x ∧ q3h < x) ∨
         (∃ v, r.llm = Cell.num v ∧ q3l < v))) := by
  intro H
  have hpre : pointPrefiltered dfC6 =
      [⟨Cell.num 1, Cell.na, 0⟩,
       ⟨Cell.num 1, Cell.num 1, 0⟩,
       ⟨Cell.num 2, Cell.num 2, 0⟩,
       ⟨Cell.num 3, Cell.num 3, 0⟩,
       ⟨Cell.num 4, Cell.num 4, 0⟩] := by with_unfolding_all rfl
  have hmem : (⟨Cell.num 1, Cell.na, 0⟩ : Row) ∈ pointPrefiltered dfC6 := by
    rw [hpre]
    exact List.mem_cons_self _ _
  have h := H dfC6 ⟨Cell.num 1, Cell.na, 0⟩ (13 / 4) 3
    (by with_unfolding_all rfl) (by with_unfolding_all rfl) hmem
    (by with_unfolding_all rfl)
  rcases h with ⟨x, hx, _⟩ | ⟨v, hv, hlt⟩
  · exact Cell.noConfusion hx
  · have hv1 : v = 1 := by
      have := Cell.num.inj hv
      exact this.symm
    rw [hv1] at hlt
    norm_num at hlt

/-- C6 (amended): point-mode IQR cleaning filters with the one-sided fences
`Q3 + 15*IQR` of the two coerced series.  A row whose human and LLM values
are both numeric and at or below the respective third quartiles is never
removed; every removed row with two numeric values exceeds Q3 in at least
one series (no row is removed for a low value — there is no lower fence);
and a row whose human value is NaN after coercion always fails the mask and
is removed uncounted by any per-row attribution beyond `rows_removed_iqr`. -/
theorem C6_iqr_upper_fence_amended (df : DFrame) (task : String)
    (cfg : Config) (out : DFrame) (st : CleanStats)
    (hcfg : get_task_config task = Except.ok cfg)
    (hiqr : cfgCleaningMethod cfg = "iqr")
    (hclean : clean_task_data df task = Except.ok (out, st)) :
    out.rows = dropnaBoth ((pointPrefiltered df).filter
      (pointIqrKeep (pointPrefiltered df))) ∧
    ∀ r : Row, ∀ q3h q3l : ℚ,
      quantileOf ((pointPrefiltered df).map Row.human) (3 / 4) = some q3h →
      quantileOf ((pointPrefiltered df).map Row.llm) (3 / 4) = some q3l →
      (∀ h v, r.human = Cell.num h → r.llm = Cell.num v →
        ((h ≤ q3h ∧ v ≤ q3l) →
          pointIqrKeep (pointPrefiltered df) r = true) ∧
        (pointIqrKeep (pointPrefiltered df) r = false →
          q3h < h ∨ q3l < v)) ∧
      (r.human = Cell.na → pointIqrKeep (pointPrefiltered df) r = false) := by
  constructor
  · simp only [clean_task_data] at hclean
    rw [hcfg] at hclean
    dsimp only at hclean
    have hnr : ¬ (cfgCleaningMethod cfg = "range") := by
      rw [hiqr]; decide
    rw [if_neg hnr, if_pos hiqr] at hclean
    dsimp only at hclean
    obtain ⟨hout, _⟩ := Prod.ext_iff.mp (Except.ok.inj hclean)
    dsimp only at hout
    rw [← hout]
    rfl
  · intro r q3h q3l hq3h hq3l
    obtain ⟨Fh, hFh, hFh3⟩ :=
      iqrFence_of_q3 ((pointPrefiltered df).map Row.human) hq3h
    obtain ⟨Fl, hFl, hFl3⟩ :=
      iqrFence_of_q3 ((pointPrefiltered df).map Row.llm) hq3l
    constructor
    · intro h v hh hv
      constructor
      · intro hle
        simp only [pointIqrKeep, hFh, hFl, hh, hv, cellLE,
          Bool.and_eq_true, decide_eq_true_eq]
        exact ⟨le_trans hle.1 hFh3, le_trans hle.2 hFl3⟩
      · intro hfalse
        simp only [pointIqrKeep, hFh, hFl, hh, hv, cellLE,
          Bool.and_eq_false_iff, decide_eq_false_iff_not, not_le] at hfalse
        rcases hfalse with hf | hf
        · exact Or.inl (lt_of_le_of_lt hFh3 hf)
        · exact Or.inr (lt_of_le_of_lt hFl3 hf)
    · intro hna
      simp [pointIqrKeep, hna, cellLE, hFh]

/-- Witness for C6 (amended) on `dfC6` under the `spending` task: the IQR
step keeps the four numeric rows, retains the row `(1, 1)` that sits at or
below both third quartiles, and removes the NaN-human row. -/
theorem C6_witness :
    ([⟨Cell.num 1, Cell.num 1, 0⟩, ⟨Cell.num 2, Cell.num 2, 0⟩,
      ⟨Cell.num 3, Cell.num 3, 0⟩, ⟨Cell.num 4, Cell.num 4, 0⟩] :
      List Row) = dropnaBoth ((pointPrefiltered dfC6).filter
        (pointIqrKeep (pointPrefiltered dfC6))) ∧
    pointIqrKeep (pointPrefiltered dfC6) ⟨Cell.num 1, Cell.num 1, 0⟩ =
      true ∧
    pointIqrKeep (pointPrefiltered dfC6) ⟨Cell.num 1, Cell.na, 0⟩ =
      false := by
  have h := C6_iqr_upper_fence_amended dfC6 "spending"
    [("llm_col", ConfigVal.str "llm_response"),
     ("human_col", ConfigVal.str "Q26v2part2"),
     ("file_pattern", ConfigVal.str "spending_*_withHumanData.csv"),
     ("description", ConfigVal.str "Spending expectation change"),
     ("cleaning_method", ConfigVal.str "iqr")]
    ⟨false, [⟨Cell.num 1, Cell.num 1, 0⟩, ⟨Cell.num 2, Cell.num 2, 0⟩,
      ⟨Cell.num 3, Cell.num 3, 0⟩, ⟨Cell.num 4, Cell.num 4, 0⟩]⟩
    ⟨5, 0, 0, 0, 1, 4⟩ rfl rfl (by with_unfolding_all rfl)
  refine ⟨h.1, ?_, ?_⟩
  · exact ((h.2 ⟨Cell.num 1, Cell.num 1, 0⟩ (13 / 4) 3
      (by with_unfolding_all rfl) (by with_unfolding_all rfl)).1 1 1 rfl
      rfl).1 ⟨by norm_num, by norm_num⟩
  · exact (h.2 ⟨Cell.num 1, Cell.na, 0⟩ (13 / 4) 3
      (by with_unfolding_all rfl) (by with_unfolding_all rfl)).2 rfl

end SCE
